import Mathlib

/-!
Verification development for the `voxels` library (public interface
`src/include/Grid.h`).  The repository ships only the public declaration
layer; the engine behind it (block store, compression, injection engine,
packer) is described in the design document, so the behavioural
definitions below are modelled from that document's component design
(§3 data model, §4 component design, §4.4 pack format).
-/

namespace Voxels

/-- Continuous (surface-space) coordinates.  The C++ interface uses
`float3`; we model the continuous coordinates with rationals. -/
structure float3 where
  x : Rat
  y : Rat
  z : Rat
deriving DecidableEq

/-- A pair of continuous coordinates delimiting a box (`float3pair`). -/
abbrev float3pair := float3 × float3

/-- Modelled from the spec: the atomic Voxel Sample of §3 — a signed
quantized distance, a dominant material id and a blend factor. -/
structure VoxelSample where
  distance : Int
  material : Nat
  blend : Nat
deriving DecidableEq

/-- The injection operation kinds of `Grid.h`. -/
inductive InjectionType where
  | IT_Add
  | IT_SubtractAddInner
  | IT_Subtract
deriving DecidableEq

/-- Modelled from the spec (§6): a surface capability returns a Voxel
Sample at every continuous coordinate. -/
def VoxelSurface := float3 → VoxelSample

/-- The fixed block extent of the engine (blocks are cubes of
`BLOCK_EXTENT³` samples); the spec's examples use extent 4. -/
def BLOCK_EXTENT : Nat := 4

/-- Bytes per voxel sample at the declared one-byte-per-channel
quantization (distance, material, blend). -/
def BYTES_PER_VOXEL_SAMPLE : Nat := 3

/-- Modelled from the spec (§4.2): a uniform block is stored as a small
constant-size record holding one representative sample. -/
def UNIFORM_BLOCK_SIZE : Nat := 3

/-- Modelled from the spec (§4.1): the single fixed default material id
used by heightmap construction. -/
def DEFAULT_MATERIAL : Nat := 1

/-- Modelled from the spec (§4.3): the amount by which one material
injection moves the blend factor (the spec fixes only the saturation
behaviour, not the increment). -/
def BLEND_STEP : Nat := 16

/-- The "fully outside, no material" default sample of `CreateEmpty`
(§4.1): maximal positive quantized distance, material 0, blend 0. -/
def defaultSample : VoxelSample := ⟨127, 0, 0⟩

/-- Modelled from the spec (§3, §4.2): a block at rest is either a
uniform constant-size record or a dense per-voxel payload. -/
inductive CompressedBlock where
  | uniform (s : VoxelSample)
  | dense (samples : List VoxelSample)
deriving DecidableEq

/-- Compress an expanded block: a block whose samples all coincide is
stored as a uniform record, otherwise densely. -/
def compress (l : List VoxelSample) : CompressedBlock :=
  match l with
  | [] => .dense []
  | s :: rest => if rest.all (· == s) then .uniform s else .dense (s :: rest)

/-- Expand a compressed block into its `n` samples (`n` = blockExtent³). -/
def expand (n : Nat) (b : CompressedBlock) : List VoxelSample :=
  match b with
  | .uniform s => List.replicate n s
  | .dense l => l

/-- Structural well-formedness of one resting block for a grid with
`n = blockExtent³` samples per block. -/
def blockOKb (n : Nat) (b : CompressedBlock) : Bool :=
  match b with
  | .uniform _ => true
  | .dense l => l.length == n

/-- Whether the block is stored in the uniform (minimum-size) form. -/
def isUniformBlock : CompressedBlock → Bool
  | .uniform _ => true
  | .dense _ => false

/-- Compressed byte size of one resting block, as accounted by
`GetGridBlocksMemorySize` (§4.1/§4.2). -/
def blockMemSize : CompressedBlock → Nat
  | .uniform _ => UNIFORM_BLOCK_SIZE
  | .dense l => BYTES_PER_VOXEL_SAMPLE * l.length

/-- The cube `e³`, the number of samples in one block of extent `e`. -/
def cube (e : Nat) : Nat := e * e * e

/-- Modelled from the spec (§3): the grid — dimensions, the fixed block
extent, the construction-time world mapping (start + step), and the
block store in row-major block order. -/
structure VoxelGrid where
  w : Nat
  d : Nat
  h : Nat
  blockExtent : Nat
  startX : Rat
  startY : Rat
  startZ : Rat
  step : Rat
  blocks : List CompressedBlock
deriving DecidableEq

namespace VoxelGrid

/-- Blocks along the X axis. -/
def wb (g : VoxelGrid) : Nat := g.w / g.blockExtent

/-- Blocks along the Y axis. -/
def db (g : VoxelGrid) : Nat := g.d / g.blockExtent

/-- Blocks along the Z axis. -/
def hb (g : VoxelGrid) : Nat := g.h / g.blockExtent

/-- Total number of blocks in the store. -/
def numBlocks (g : VoxelGrid) : Nat := g.wb * g.db * g.hb

end VoxelGrid

/-- Row-major flattening of a 3-dimensional index (`i` fastest). -/
def idx3 (a b i j k : Nat) : Nat := i + a * (j + b * k)

/-- Index of the block containing voxel `(x, y, z)`. -/
def blockIndexOf (g : VoxelGrid) (x y z : Nat) : Nat :=
  idx3 g.wb g.db (x / g.blockExtent) (y / g.blockExtent) (z / g.blockExtent)

/-- Offset of voxel `(x, y, z)` inside its block (x fastest). -/
def localIndexOf (e x y z : Nat) : Nat := idx3 e e (x % e) (y % e) (z % e)

/-- Global X coordinate of local offset `li` of block `bi`. -/
def gxOf (wb e bi li : Nat) : Nat := bi % wb * e + li % e

/-- Global Y coordinate of local offset `li` of block `bi`. -/
def gyOf (wb db e bi li : Nat) : Nat := bi / wb % db * e + li / e % e

/-- Global Z coordinate of local offset `li` of block `bi`. -/
def gzOf (wb db e bi li : Nat) : Nat := bi / (wb * db) * e + li / (e * e)

/-- The sample stored at voxel coordinate `(x, y, z)`: locate the
containing block, expand it and read the local offset; `none` outside
`[0,w)×[0,d)×[0,h)`. -/
def voxelAt (g : VoxelGrid) (x y z : Nat) : Option VoxelSample :=
  if x < g.w ∧ y < g.d ∧ z < g.h then
    some ((expand (cube g.blockExtent)
        (g.blocks.getD (blockIndexOf g x y z) (.uniform defaultSample))).getD
      (localIndexOf g.blockExtent x y z) defaultSample)
  else none

/-- Invariants every grid built through the public interface satisfies:
positive dimensions that are multiples of the block extent, a complete
row-major block store with well-sized blocks, and a positive sampling
step. -/
def WF (g : VoxelGrid) : Prop :=
  0 < g.blockExtent ∧ 0 < g.w ∧ 0 < g.d ∧ 0 < g.h ∧
  g.w % g.blockExtent = 0 ∧ g.d % g.blockExtent = 0 ∧ g.h % g.blockExtent = 0 ∧
  g.blocks.length = g.numBlocks ∧
  (∀ b ∈ g.blocks, blockOKb (cube g.blockExtent) b = true) ∧
  0 < g.step

instance (g : VoxelGrid) : Decidable (WF g) := by
  unfold WF; infer_instance

/-- Validation shared by all `Create` overloads (§4.1): dimensions must
be positive multiples of the fixed block extent. -/
def validDims (w d h : Nat) : Prop :=
  0 < w ∧ 0 < d ∧ 0 < h ∧
  w % BLOCK_EXTENT = 0 ∧ d % BLOCK_EXTENT = 0 ∧ h % BLOCK_EXTENT = 0

instance (w d h : Nat) : Decidable (validDims w d h) := by
  unfold validDims; infer_instance

/-- Populate a complete block store by sampling `fn` at every voxel
coordinate and compressing each block (§4.1 construction paths). -/
def buildBlocks (w d h e : Nat) (fn : Nat → Nat → Nat → VoxelSample) :
    List CompressedBlock :=
  (List.range (w / e * (d / e) * (h / e))).map fun bi =>
    compress ((List.range (cube e)).map fun li =>
      fn (gxOf (w / e) e bi li) (gyOf (w / e) (d / e) e bi li)
        (gzOf (w / e) (d / e) e bi li))

/-- A freshly constructed grid sampling `fn` over the whole volume. -/
def mkGridOfFn (w d h : Nat) (sx sy sz st : Rat)
    (fn : Nat → Nat → Nat → VoxelSample) : VoxelGrid :=
  ⟨w, d, h, BLOCK_EXTENT, sx, sy, sz, st, buildBlocks w d h BLOCK_EXTENT fn⟩

/-- Overload `Grid::Create(w, d, h, startX, startY, startZ, step, surface)`:
modelled from the spec (§4.1 `CreateFromSurface`) — validates the
dimensions (and a positive sampling step), then samples the surface at
`start + (i,j,k)*step` for every voxel. -/
def CreateFromSurface (w d h : Nat) (sx sy sz st : Rat)
    (surface : VoxelSurface) : Option VoxelGrid :=
  if validDims w d h ∧ 0 < st then
    some (mkGridOfFn w d h sx sy sz st fun x y z =>
      surface ⟨sx + (x : Rat) * st, sy + (y : Rat) * st, sz + (z : Rat) * st⟩)
  else none

/-- Overload `Grid::Create(w, d, h)`: modelled from the spec (§4.1 `CreateEmpty`)
— every voxel gets the "fully outside, no material" default. -/
def CreateEmpty (w d h : Nat) : Option VoxelGrid :=
  if validDims w d h then
    some (mkGridOfFn w d h 0 0 0 1 fun _ _ _ => defaultSample)
  else none

/-- Overload `Grid::Create(w, heightmap)`: modelled from the spec (§4.1
`CreateFromHeightmap`) — a `w×w×w` grid; the heightmap supplies one
height per `(x, y)` column (`w*w` values, rejected otherwise); the voxel
at height `z` gets distance `z - height(x, y)` and the fixed default
material id. -/
def CreateFromHeightmap (w : Nat) (heightmap : List Int) : Option VoxelGrid :=
  if validDims w w w ∧ heightmap.length = w * w then
    some (mkGridOfFn w w w 0 0 0 1 fun x y z =>
      ⟨(z : Int) - heightmap.getD (y * w + x) 0, DEFAULT_MATERIAL, 0⟩)
  else none

/-- Accessor `Grid::GetWidth`. -/
def GetWidth (g : VoxelGrid) : Nat := g.w

/-- Accessor `Grid::GetDepth`. -/
def GetDepth (g : VoxelGrid) : Nat := g.d

/-- Accessor `Grid::GetHeight`. -/
def GetHeight (g : VoxelGrid) : Nat := g.h

/-- Accessor `Grid::GetBlockExtent`. -/
def GetBlockExtent (g : VoxelGrid) : Nat := g.blockExtent

/-- Accessor `Grid::GetGridBlocksMemorySize`: sum of every block's current
compressed byte size (§4.1). -/
def GetGridBlocksMemorySize (g : VoxelGrid) : Nat :=
  (g.blocks.map blockMemSize).sum

/-- Membership of voxel `(x, y, z)` in the inclusive voxel box
`[lo, hi]`. -/
def inBoxP (lo hi : Nat × Nat × Nat) (x y z : Nat) : Prop :=
  lo.1 ≤ x ∧ x ≤ hi.1 ∧ lo.2.1 ≤ y ∧ y ≤ hi.2.1 ∧ lo.2.2 ≤ z ∧ z ≤ hi.2.2

instance (lo hi : Nat × Nat × Nat) (x y z : Nat) :
    Decidable (inBoxP lo hi x y z) := by
  unfold inBoxP; infer_instance

/-- Whether block `bi` contains at least one voxel of the box
(§4.3: only touched blocks are expanded and recompressed). -/
def touchedBlock (g : VoxelGrid) (lo hi : Nat × Nat × Nat) (bi : Nat) : Bool :=
  (List.range (cube g.blockExtent)).any fun li =>
    decide (inBoxP lo hi (gxOf g.wb g.blockExtent bi li)
      (gyOf g.wb g.db g.blockExtent bi li) (gzOf g.wb g.db g.blockExtent bi li))

/-- Expanded samples of block `bi` after merging `f` into every voxel of
the box (voxels outside the box keep the stored sample). -/
def updateBlock (g : VoxelGrid) (lo hi : Nat × Nat × Nat)
    (f : Nat → Nat → Nat → VoxelSample → VoxelSample) (bi : Nat)
    (b : CompressedBlock) : List VoxelSample :=
  (List.range (cube g.blockExtent)).map fun li =>
    if inBoxP lo hi (gxOf g.wb g.blockExtent bi li)
        (gyOf g.wb g.db g.blockExtent bi li)
        (gzOf g.wb g.db g.blockExtent bi li) then
      f (gxOf g.wb g.blockExtent bi li) (gyOf g.wb g.db g.blockExtent bi li)
        (gzOf g.wb g.db g.blockExtent bi li)
        ((expand (cube g.blockExtent) b).getD li defaultSample)
    else (expand (cube g.blockExtent) b).getD li defaultSample

/-- Modelled from the spec (§4.3 Injection Engine): merge `f` into every
voxel of the clipped box; every touched block is expanded, updated and
recompressed once, untouched blocks are left at rest. -/
def injectWith (g : VoxelGrid) (lo hi : Nat × Nat × Nat)
    (f : Nat → Nat → Nat → VoxelSample → VoxelSample) : VoxelGrid :=
  { g with blocks := (List.range g.blocks.length).map fun bi =>
      if touchedBlock g lo hi bi then
        compress (updateBlock g lo hi f bi
          (g.blocks.getD bi (.uniform defaultSample)))
      else g.blocks.getD bi (.uniform defaultSample) }

/-- Clip of one axis: the voxel indices whose continuous coordinate
`start + i*step` falls inside `[p, p + ex]`, intersected with
`[0, dim)` (§4.3). -/
def clipAxis (p ex s st : Rat) (dim : Nat) : Int × Int :=
  (max 0 ⌈(p - s) / st⌉, min ((dim : Int) - 1) ⌊(p + ex - s) / st⌋)

/-- The clipped voxel-coordinate box of an injection request, `none`
when the clipped box is empty (§4.3). -/
def clippedBox (g : VoxelGrid) (pos ext : float3) :
    Option ((Nat × Nat × Nat) × (Nat × Nat × Nat)) :=
  if (clipAxis pos.x ext.x g.startX g.step g.w).1 ≤
        (clipAxis pos.x ext.x g.startX g.step g.w).2 ∧
      (clipAxis pos.y ext.y g.startY g.step g.d).1 ≤
        (clipAxis pos.y ext.y g.startY g.step g.d).2 ∧
      (clipAxis pos.z ext.z g.startZ g.step g.h).1 ≤
        (clipAxis pos.z ext.z g.startZ g.step g.h).2 then
    some (((clipAxis pos.x ext.x g.startX g.step g.w).1.toNat,
        (clipAxis pos.y ext.y g.startY g.step g.d).1.toNat,
        (clipAxis pos.z ext.z g.startZ g.step g.h).1.toNat),
      ((clipAxis pos.x ext.x g.startX g.step g.w).2.toNat,
        (clipAxis pos.y ext.y g.startY g.step g.d).2.toNat,
        (clipAxis pos.z ext.z g.startZ g.step g.h).2.toNat))
  else none

/-- The affected region reported back to the caller, in the same
continuous space as `position` (§4.3). -/
def regionOf (g : VoxelGrid) (lo hi : Nat × Nat × Nat) : float3pair :=
  (⟨g.startX + (lo.1 : Rat) * g.step, g.startY + (lo.2.1 : Rat) * g.step,
     g.startZ + (lo.2.2 : Rat) * g.step⟩,
   ⟨g.startX + (hi.1 : Rat) * g.step, g.startY + (hi.2.1 : Rat) * g.step,
     g.startZ + (hi.2.2 : Rat) * g.step⟩)

/-- Modelled from the spec (§4.3): per-voxel merge of a candidate sample
`c` into the stored sample `s` for each injection type — union keeps the
more-solid sample, carve keeps the less-solid of `s` and the inverse of
`c`, replace-interior installs `c` where `c` is solid and carves
elsewhere. -/
def mergeSample (ty : InjectionType) (c s : VoxelSample) : VoxelSample :=
  match ty with
  | .IT_Add => if c.distance < s.distance then c else s
  | .IT_Subtract => { s with distance := max s.distance (-c.distance) }
  | .IT_SubtractAddInner =>
    if c.distance < 0 then c else { s with distance := max s.distance (-c.distance) }

/-- Operation `Grid::InjectSurface`: modelled from the spec (§4.3) — compute the
clipped voxel box, merge the sampled surface into it, return the grid
and the really affected region (degenerate when the clip is empty). -/
def InjectSurface (g : VoxelGrid) (position extents : float3)
    (surface : VoxelSurface) (ty : InjectionType) : VoxelGrid × float3pair :=
  match clippedBox g position extents with
  | none => (g, (position, position))
  | some (lo, hi) =>
    (injectWith g lo hi fun x y z s =>
        mergeSample ty
          (surface ⟨g.startX + (x : Rat) * g.step, g.startY + (y : Rat) * g.step,
            g.startZ + (z : Rat) * g.step⟩) s,
     regionOf g lo hi)

/-- Blend update of one material injection: move toward saturation
(capped at 255) or away from it (floored at 0), per §4.3. -/
def blendBump (addSubtractBlend : Bool) (b : Nat) : Nat :=
  if addSubtractBlend then min 255 (b + BLEND_STEP) else b - BLEND_STEP

/-- Operation `Grid::InjectMaterial`: modelled from the spec (§4.3) — leaves the
distance untouched, sets the material id and moves the blend factor. -/
def InjectMaterial (g : VoxelGrid) (position extents : float3)
    (material : Nat) (addSubtractBlend : Bool) : VoxelGrid × float3pair :=
  match clippedBox g position extents with
  | none => (g, (position, position))
  | some (lo, hi) =>
    (injectWith g lo hi fun _ _ _ s =>
        ⟨s.distance, material, blendBump addSubtractBlend s.blend⟩,
     regionOf g lo hi)

/-- Whether the (floored) coordinates address a voxel inside the grid. -/
def inGridP (g : VoxelGrid) (c : float3) : Prop :=
  0 ≤ ⌊c.x⌋ ∧ ⌊c.x⌋ < (g.w : Int) ∧ 0 ≤ ⌊c.y⌋ ∧ ⌊c.y⌋ < (g.d : Int) ∧
  0 ≤ ⌊c.z⌋ ∧ ⌊c.z⌋ < (g.h : Int)

instance (g : VoxelGrid) (c : float3) : Decidable (inGridP g c) := by
  unfold inGridP; infer_instance

/-- The index of the block containing continuous coordinates `c`. -/
def blockIndexOfCoords (g : VoxelGrid) (c : float3) : Nat :=
  blockIndexOf g ⌊c.x⌋.toNat ⌊c.y⌋.toNat ⌊c.z⌋.toNat

/-- Operation `Grid::GetBlockDistanceData`: modelled from the spec (§4.1) — locate
the block containing `coords`, expand it transiently and return the
distance channel of all `blockExtent³` samples; reports failure (and
leaves the caller's buffer untouched, modelled by `none`) out of
range. -/
def GetBlockDistanceData (g : VoxelGrid) (coords : float3) :
    Option (List Int) :=
  if inGridP g coords then
    some ((expand (cube g.blockExtent)
      (g.blocks.getD (blockIndexOfCoords g coords)
        (.uniform defaultSample))).map (·.distance))
  else none

/-- Operation `Grid::GetBlockMaterialData`: modelled from the spec (§4.1) — like
`GetBlockDistanceData` but returning the material and blend channels. -/
def GetBlockMaterialData (g : VoxelGrid) (coords : float3) :
    Option (List Nat × List Nat) :=
  if inGridP g coords then
    some ((expand (cube g.blockExtent)
        (g.blocks.getD (blockIndexOfCoords g coords)
          (.uniform defaultSample))).map (·.material),
      (expand (cube g.blockExtent)
        (g.blocks.getD (blockIndexOfCoords g coords)
          (.uniform defaultSample))).map (·.blend))
  else none

/-- Operation `Grid::ModifyBlockDistanceData`: modelled from the spec (§4.1) —
overwrite the distance channel of the block containing `coords` from
the caller's buffer and recompress it; a silent no-op out of range. -/
def ModifyBlockDistanceData (g : VoxelGrid) (coords : float3)
    (distances : List Int) : VoxelGrid :=
  if inGridP g coords then
    let bi := blockIndexOfCoords g coords
    let old := expand (cube g.blockExtent)
      (g.blocks.getD bi (.uniform defaultSample))
    let nb := compress ((List.range (cube g.blockExtent)).map fun li =>
      { old.getD li defaultSample with distance := distances.getD li 0 })
    { g with blocks := g.blocks.set bi nb }
  else g

/-- Operation `Grid::ModifyBlockMaterialData`: modelled from the spec (§4.1) —
overwrite the material and blend channels of the block containing
`coords` and recompress it; a silent no-op out of range. -/
def ModifyBlockMaterialData (g : VoxelGrid) (coords : float3)
    (materials blends : List Nat) : VoxelGrid :=
  if inGridP g coords then
    let bi := blockIndexOfCoords g coords
    let old := expand (cube g.blockExtent)
      (g.blocks.getD bi (.uniform defaultSample))
    let nb := compress ((List.range (cube g.blockExtent)).map fun li =>
      { old.getD li defaultSample with
        material := materials.getD li 0, blend := blends.getD li 0 })
    { g with blocks := g.blocks.set bi nb }
  else g

/-! ### The Packer (§4.4)

Byte sequences are modelled as lists of naturals.  Unbounded fields are
serialized in a self-delimiting base-128 (varint) form; the pack layout
is the spec's: magic tag, format version, dimensions and block extent,
a directory of `(offset, byteSize)` per block in row-major order, then
every block's compressed payload verbatim. -/

/-- Varint encoding worker; the fuel is an upper bound on the value,
which makes the recursion structural. -/
def encNatAux : Nat → Nat → List Nat
  | 0, n => [n % 128]
  | fuel + 1, n =>
    if n < 128 then [n] else (n % 128 + 128) :: encNatAux fuel (n / 128)

/-- Base-128 varint encoding of a natural number. -/
def encNat (n : Nat) : List Nat := encNatAux n n

/-- Decode one varint; returns the value and the remaining bytes. -/
def decNat : List Nat → Option (Nat × List Nat)
  | [] => none
  | b :: rest =>
    if b < 128 then some (b, rest)
    else
      match decNat rest with
      | some (m, r) => some (b - 128 + 128 * m, r)
      | none => none

/-- Zig-zag mapping of an integer onto the naturals. -/
def zig (i : Int) : Nat := if 0 ≤ i then 2 * i.toNat else 2 * (-i).toNat - 1

/-- Inverse of the zig-zag mapping. -/
def unzig (n : Nat) : Int :=
  if n % 2 = 0 then ((n / 2 : Nat) : Int) else -(((n / 2 : Nat) : Int) + 1)

/-- Encoding of a signed quantity. -/
def encInt (i : Int) : List Nat := encNat (zig i)

/-- Decode one signed quantity. -/
def decInt (bytes : List Nat) : Option (Int × List Nat) :=
  match decNat bytes with
  | some (n, r) => some (unzig n, r)
  | none => none

/-- Serialize one voxel sample (distance, material, blend). -/
def encSample (s : VoxelSample) : List Nat :=
  encInt s.distance ++ (encNat s.material ++ encNat s.blend)

/-- Decode one voxel sample. -/
def decSample (bytes : List Nat) : Option (VoxelSample × List Nat) :=
  match decInt bytes with
  | some (d, r1) =>
    match decNat r1 with
    | some (m, r2) =>
      match decNat r2 with
      | some (bl, r3) => some (⟨d, m, bl⟩, r3)
      | none => none
    | none => none
  | none => none

/-- Serialize a list of samples back to back. -/
def encSamples : List VoxelSample → List Nat
  | [] => []
  | s :: rest => encSample s ++ encSamples rest

/-- Decode exactly `k` consecutive samples. -/
def decSamples : Nat → List Nat → Option (List VoxelSample × List Nat)
  | 0, bytes => some ([], bytes)
  | k + 1, bytes =>
    match decSample bytes with
    | some (s, r) =>
      match decSamples k r with
      | some (l, r2) => some (s :: l, r2)
      | none => none
    | none => none

/-- Compressed payload of one block: a flag byte, then either the
representative sample or the counted dense sample list. -/
def encBlock : CompressedBlock → List Nat
  | .uniform s => 0 :: encSample s
  | .dense l => 1 :: (encNat l.length ++ encSamples l)

/-- Decode one block payload. -/
def decBlock : List Nat → Option (CompressedBlock × List Nat)
  | 0 :: rest =>
    (match decSample rest with
     | some (s, r) => some (.uniform s, r)
     | none => none)
  | 1 :: rest =>
    (match decNat rest with
     | some (k, r1) =>
       match decSamples k r1 with
       | some (l, r2) => some (.dense l, r2)
       | none => none
     | none => none)
  | _ => none

/-- The pack directory: one `(offset, byteSize)` entry per block in
row-major block order; offsets are running totals into the payload
area. -/
def packDir : Nat → List CompressedBlock → List Nat
  | _, [] => []
  | off, b :: bs =>
    encNat off ++ (encNat (encBlock b).length ++
      packDir (off + (encBlock b).length) bs)

/-- All block payloads back to back, in row-major block order. -/
def encBlocks : List CompressedBlock → List Nat
  | [] => []
  | b :: bs => encBlock b ++ encBlocks bs

/-- Read `n` directory entries, validating that every offset is the
running total of the preceding byte sizes. -/
def readDir : Nat → Nat → List Nat → Option (List Nat × List Nat)
  | 0, _, bytes => some ([], bytes)
  | n + 1, off, bytes =>
    match decNat bytes with
    | some (o, r1) =>
      if o = off then
        match decNat r1 with
        | some (sz, r2) =>
          match readDir n (off + sz) r2 with
          | some (szs, r3) => some (sz :: szs, r3)
          | none => none
        | none => none
      else none
    | none => none

/-- Reattach each block's payload, validating that every payload decodes
completely within its directory slot and has the right sample count. -/
def readBlocks (n : Nat) : List Nat → List Nat →
    Option (List CompressedBlock × List Nat)
  | [], bytes => some ([], bytes)
  | sz :: szs, bytes =>
    match decBlock (bytes.take sz) with
    | some (b, []) =>
      if blockOKb n b then
        match readBlocks n szs (bytes.drop sz) with
        | some (bs, r) => some (b :: bs, r)
        | none => none
      else none
    | _ => none

/-- Operation `Grid::PackForSave`: modelled from the spec (§4.4 Pack) — header
(magic tag, version, width, depth, height, block extent), directory,
then every block's compressed bytes verbatim. -/
def PackForSave (g : VoxelGrid) : List Nat :=
  86 :: 79 :: 88 :: 76 :: 1 ::
    (encNat g.w ++ (encNat g.d ++ (encNat g.h ++ (encNat g.blockExtent ++
      (packDir 0 g.blocks ++ encBlocks g.blocks)))))

/-- Operation `Grid::Load`: modelled from the spec (§4.4 Unpack) — validate magic
and version, dimensions against the stored block extent, the directory
and every payload; any failure yields no grid. -/
def Load (bytes : List Nat) : Option VoxelGrid :=
  match bytes with
  | 86 :: 79 :: 88 :: 76 :: 1 :: rest =>
    (match decNat rest with
     | some (w, r1) =>
       match decNat r1 with
       | some (d, r2) =>
         match decNat r2 with
         | some (h, r3) =>
           match decNat r3 with
           | some (e, r4) =>
             if 0 < e ∧ 0 < w ∧ 0 < d ∧ 0 < h ∧
                 w % e = 0 ∧ d % e = 0 ∧ h % e = 0 then
               match readDir (w / e * (d / e) * (h / e)) 0 r4 with
               | some (szs, r5) =>
                 (match readBlocks (cube e) szs r5 with
                  | some (bs, []) => some ⟨w, d, h, e, 0, 0, 0, 1, bs⟩
                  | _ => none)
               | none => none
             else none
           | none => none
         | none => none
       | none => none
     | none => none)
  | _ => none

/-- The grid reconstructed by a save/load round trip: identical store
and dimensions; the construction-time world mapping (used only during
construction, §3) is not part of the pack format and resets to voxel
units. -/
def reloadOf (g : VoxelGrid) : VoxelGrid :=
  { g with startX := 0, startY := 0, startZ := 0, step := 1 }

/-- Grids reachable through the public construction and mutation
interface. -/
inductive Produced : VoxelGrid → Prop where
  | fromSurface {w d h : Nat} {sx sy sz st : Rat} {surf : VoxelSurface}
      {g : VoxelGrid} : CreateFromSurface w d h sx sy sz st surf = some g →
      Produced g
  | empty {w d h : Nat} {g : VoxelGrid} : CreateEmpty w d h = some g →
      Produced g
  | heightmap {w : Nat} {hm : List Int} {g : VoxelGrid} :
      CreateFromHeightmap w hm = some g → Produced g
  | loaded {bytes : List Nat} {g : VoxelGrid} : Load bytes = some g →
      Produced g
  | injectSurface {g : VoxelGrid} {p e : float3} {surf : VoxelSurface}
      {ty : InjectionType} : Produced g →
      Produced (InjectSurface g p e surf ty).1
  | injectMaterial {g : VoxelGrid} {p e : float3} {m : Nat} {asb : Bool} :
      Produced g → Produced (InjectMaterial g p e m asb).1
  | modifyDistance {g : VoxelGrid} {c : float3} {ds : List Int} :
      Produced g → Produced (ModifyBlockDistanceData g c ds)
  | modifyMaterial {g : VoxelGrid} {c : float3} {ms bs : List Nat} :
      Produced g → Produced (ModifyBlockMaterialData g c ms bs)

/-- A concrete empty 4×4×4 grid (one uniform block), the value of
`CreateEmpty 4 4 4`. -/
def gridEmpty4 : VoxelGrid :=
  ⟨4, 4, 4, 4, 0, 0, 0, 1, [.uniform defaultSample]⟩

/-- A concrete heightmap grid: `CreateFromHeightmap 4` over sixteen zero
heights (one dense block whose distance grows with `z`). -/
def gridHm4 : VoxelGrid :=
  ⟨4, 4, 4, 4, 0, 0, 0, 1,
    [.dense ((List.range 64).map fun li => ⟨((li / 16 : Nat) : Int), 1, 0⟩)]⟩

/-- A constant surface producing a solid sample everywhere. -/
def constSurface : VoxelSurface := fun _ => ⟨-3, 2, 5⟩

/-- A grid holding the same samples as `gridEmpty4` but stored in the
dense (non-canonical) block representation. -/
def gridDense4 : VoxelGrid :=
  ⟨4, 4, 4, 4, 0, 0, 0, 1, [.dense (List.replicate 64 defaultSample)]⟩

/-! ### Helper lemmas: indexing, compression, projections -/

theorem gridEmpty4_created : CreateEmpty 4 4 4 = some gridEmpty4 := by decide

theorem gridHm4_created :
    CreateFromHeightmap 4 (List.replicate 16 0) = some gridHm4 := by decide

theorem getD_range_map {α : Type} (n : Nat) (f : Nat → α) (i : Nat) (dflt : α)
    (h : i < n) : ((List.range n).map f).getD i dflt = f i := by
  have hl : i < ((List.range n).map f).length := by simpa using h
  rw [List.getD_eq_getElem _ _ hl]
  simp

theorem idx3_lt {a b c i j k : Nat} (hi : i < a) (hj : j < b) (hk : k < c) :
    idx3 a b i j k < a * b * c := by
  unfold idx3
  have h1 : j + b * k < b * c := by
    calc j + b * k < b + b * k := by omega
      _ = b * (k + 1) := by ring
      _ ≤ b * c := Nat.mul_le_mul_left _ (by omega)
  calc i + a * (j + b * k) < a + a * (j + b * k) := by omega
    _ = a * (j + b * k + 1) := by ring
    _ ≤ a * (b * c) := Nat.mul_le_mul_left _ (by omega)
    _ = a * b * c := by ring

theorem idx3_mod {a i : Nat} (b j k : Nat) (hi : i < a) :
    idx3 a b i j k % a = i := by
  unfold idx3
  rw [Nat.add_mul_mod_self_left, Nat.mod_eq_of_lt hi]

theorem idx3_div {a i : Nat} (b j k : Nat) (hi : i < a) :
    idx3 a b i j k / a = j + b * k := by
  unfold idx3
  rw [Nat.add_mul_div_left _ _ (by omega : 0 < a), Nat.div_eq_of_lt hi]
  omega

theorem idx3_div2 {a b i j : Nat} (k : Nat) (hi : i < a) (hj : j < b) :
    idx3 a b i j k / (a * b) = k := by
  have h : idx3 a b i j k = i + a * j + a * b * k := by unfold idx3; ring
  have hb : i + a * j < a * b := by
    calc i + a * j < a + a * j := by omega
      _ = a * (j + 1) := by ring
      _ ≤ a * b := Nat.mul_le_mul_left _ (by omega)
  rw [h, Nat.add_mul_div_left _ _ (Nat.mul_pos (by omega) (by omega) :
    0 < a * b), Nat.div_eq_of_lt hb]
  omega

theorem idx_split (a b bi : Nat) :
    bi % a + a * (bi / a % b + b * (bi / a / b)) = bi := by
  rw [Nat.mod_add_div (bi / a) b, Nat.mod_add_div bi a]

theorem expand_compress {l : List VoxelSample} {n : Nat} (hl : l.length = n)
    (hn : 0 < n) : expand n (compress l) = l := by
  cases l with
  | nil => simp at hl; omega
  | cons s rest =>
    by_cases hall : rest.all (· == s)
    · have hmem : ∀ t ∈ rest, t = s := by
        intro t ht
        have := List.all_eq_true.mp hall t ht
        simpa using this
      have hrest : rest = List.replicate rest.length s :=
        List.eq_replicate_of_mem hmem
      simp only [compress, hall, if_true, expand]
      rw [← hl]
      simp only [List.length_cons, List.replicate_succ]
      rw [← hrest]
    · simp [compress, hall, expand]

theorem blockOKb_compress {l : List VoxelSample} {n : Nat}
    (hl : l.length = n) : blockOKb n (compress l) = true := by
  cases l with
  | nil =>
    simp only [compress, blockOKb]
    simp [← hl]
  | cons s rest =>
    by_cases hall : rest.all (· == s)
    · simp [compress, hall, blockOKb]
    · simp [compress, hall, blockOKb, hl]

theorem expand_length {n : Nat} {b : CompressedBlock}
    (hok : blockOKb n b = true) : (expand n b).length = n := by
  cases b with
  | uniform s => simp [expand]
  | dense l => simpa [expand, blockOKb] using hok

theorem injectWith_w (g : VoxelGrid) (lo hi : Nat × Nat × Nat) (f) :
    (injectWith g lo hi f).w = g.w := rfl

theorem injectWith_d (g : VoxelGrid) (lo hi : Nat × Nat × Nat) (f) :
    (injectWith g lo hi f).d = g.d := rfl

theorem injectWith_h (g : VoxelGrid) (lo hi : Nat × Nat × Nat) (f) :
    (injectWith g lo hi f).h = g.h := rfl

theorem injectWith_blockExtent (g : VoxelGrid) (lo hi : Nat × Nat × Nat) (f) :
    (injectWith g lo hi f).blockExtent = g.blockExtent := rfl

theorem injectWith_blocks_length (g : VoxelGrid) (lo hi : Nat × Nat × Nat)
    (f) : (injectWith g lo hi f).blocks.length = g.blocks.length := by
  simp [injectWith]

theorem blockIndexOf_lt {g : VoxelGrid} (hWF : WF g) {x y z : Nat}
    (hx : x < g.w) (hy : y < g.d) (hz : z < g.h) :
    blockIndexOf g x y z < g.numBlocks := by
  obtain ⟨he, hw0, hd0, hh0, hwm, hdm, hhm, hlen, hok, hst⟩ := hWF
  exact idx3_lt
    (Nat.div_lt_div_of_lt_of_dvd (Nat.dvd_of_mod_eq_zero hwm) hx)
    (Nat.div_lt_div_of_lt_of_dvd (Nat.dvd_of_mod_eq_zero hdm) hy)
    (Nat.div_lt_div_of_lt_of_dvd (Nat.dvd_of_mod_eq_zero hhm) hz)

theorem localIndexOf_lt {g : VoxelGrid} (hWF : WF g) (x y z : Nat) :
    localIndexOf g.blockExtent x y z < cube g.blockExtent :=
  idx3_lt (Nat.mod_lt _ hWF.1) (Nat.mod_lt _ hWF.1) (Nat.mod_lt _ hWF.1)

theorem coords_recompose {g : VoxelGrid} (hWF : WF g) {x y z : Nat}
    (hx : x < g.w) (hy : y < g.d) (_hz : z < g.h) :
    gxOf g.wb g.blockExtent (blockIndexOf g x y z)
        (localIndexOf g.blockExtent x y z) = x ∧
    gyOf g.wb g.db g.blockExtent (blockIndexOf g x y z)
        (localIndexOf g.blockExtent x y z) = y ∧
    gzOf g.wb g.db g.blockExtent (blockIndexOf g x y z)
        (localIndexOf g.blockExtent x y z) = z := by
  have he : 0 < g.blockExtent := hWF.1
  have hbx : x / g.blockExtent < g.wb :=
    Nat.div_lt_div_of_lt_of_dvd (Nat.dvd_of_mod_eq_zero hWF.2.2.2.2.1) hx
  have hby : y / g.blockExtent < g.db :=
    Nat.div_lt_div_of_lt_of_dvd (Nat.dvd_of_mod_eq_zero hWF.2.2.2.2.2.1) hy
  have hlx : x % g.blockExtent < g.blockExtent := Nat.mod_lt _ he
  have hly : y % g.blockExtent < g.blockExtent := Nat.mod_lt _ he
  refine ⟨?_, ?_, ?_⟩
  · unfold gxOf blockIndexOf localIndexOf
    rw [idx3_mod _ _ _ hbx, idx3_mod _ _ _ hlx,
      Nat.mul_comm (x / g.blockExtent) g.blockExtent]
    exact Nat.div_add_mod x g.blockExtent
  · unfold gyOf blockIndexOf localIndexOf
    rw [idx3_div _ _ _ hbx, idx3_div _ _ _ hlx,
      Nat.add_mul_mod_self_left, Nat.add_mul_mod_self_left,
      Nat.mod_eq_of_lt hby, Nat.mod_eq_of_lt hly,
      Nat.mul_comm (y / g.blockExtent) g.blockExtent]
    exact Nat.div_add_mod y g.blockExtent
  · unfold gzOf blockIndexOf localIndexOf
    rw [idx3_div2 _ hbx hby, idx3_div2 _ hlx hly,
      Nat.mul_comm (z / g.blockExtent) g.blockExtent]
    exact Nat.div_add_mod z g.blockExtent

theorem cube_pos {e : Nat} (he : 0 < e) : 0 < cube e := by
  unfold cube
  exact Nat.mul_pos (Nat.mul_pos he he) he

theorem updateBlock_length (g : VoxelGrid) (lo hi : Nat × Nat × Nat)
    (f : Nat → Nat → Nat → VoxelSample → VoxelSample) (bi : Nat)
    (b : CompressedBlock) :
    (updateBlock g lo hi f bi b).length = cube g.blockExtent := by
  simp [updateBlock]

/-- The per-voxel meaning of one injection pass: every voxel of the box
gets `f` merged in, every other voxel keeps its stored sample. -/
theorem voxelAt_injectWith (g : VoxelGrid) (lo hi : Nat × Nat × Nat)
    (f : Nat → Nat → Nat → VoxelSample → VoxelSample) (hWF : WF g)
    (x y z : Nat) :
    voxelAt (injectWith g lo hi f) x y z =
      (voxelAt g x y z).map fun s =>
        if inBoxP lo hi x y z then f x y z s else s := by
  by_cases hrange : x < g.w ∧ y < g.d ∧ z < g.h
  · obtain ⟨hx, hy, hz⟩ := hrange
    have he : 0 < g.blockExtent := hWF.1
    have hcube : 0 < cube g.blockExtent := cube_pos he
    have hbi : blockIndexOf g x y z < g.blocks.length := by
      rw [hWF.2.2.2.2.2.2.2.1]
      exact blockIndexOf_lt hWF hx hy hz
    have hli := localIndexOf_lt hWF x y z
    obtain ⟨hgx, hgy, hgz⟩ := coords_recompose hWF hx hy hz
    have hul := updateBlock_length g lo hi f (blockIndexOf g x y z)
      (g.blocks.getD (blockIndexOf g x y z) (.uniform defaultSample))
    have hblocks : (injectWith g lo hi f).blocks.getD (blockIndexOf g x y z)
        (.uniform defaultSample)
        = if touchedBlock g lo hi (blockIndexOf g x y z) then
            compress (updateBlock g lo hi f (blockIndexOf g x y z)
              (g.blocks.getD (blockIndexOf g x y z) (.uniform defaultSample)))
          else g.blocks.getD (blockIndexOf g x y z) (.uniform defaultSample) := by
      show ((List.range g.blocks.length).map _).getD _ _ = _
      rw [getD_range_map _ _ _ _ hbi]
    have hvox : voxelAt g x y z = some ((expand (cube g.blockExtent)
        (g.blocks.getD (blockIndexOf g x y z) (.uniform defaultSample))).getD
          (localIndexOf g.blockExtent x y z) defaultSample) := by
      unfold voxelAt
      rw [if_pos ⟨hx, hy, hz⟩]
    have hvox2 : voxelAt (injectWith g lo hi f) x y z
        = some ((expand (cube g.blockExtent)
            ((injectWith g lo hi f).blocks.getD (blockIndexOf g x y z)
              (.uniform defaultSample))).getD
          (localIndexOf g.blockExtent x y z) defaultSample) := by
      unfold voxelAt
      rw [if_pos (show x < (injectWith g lo hi f).w ∧
        y < (injectWith g lo hi f).d ∧ z < (injectWith g lo hi f).h from
        ⟨hx, hy, hz⟩)]
      rfl
    rw [hvox2, hvox, hblocks]
    simp only [Option.map_some']
    by_cases hbox : inBoxP lo hi x y z
    · have htouched : touchedBlock g lo hi (blockIndexOf g x y z) = true := by
        unfold touchedBlock
        rw [List.any_eq_true]
        refine ⟨localIndexOf g.blockExtent x y z, List.mem_range.mpr hli, ?_⟩
        rw [hgx, hgy, hgz]
        exact decide_eq_true hbox
      rw [if_pos (by simp [htouched]), expand_compress hul hcube]
      unfold updateBlock
      rw [getD_range_map _ _ _ _ hli, hgx, hgy, hgz, if_pos hbox]
    · by_cases ht : touchedBlock g lo hi (blockIndexOf g x y z) = true
      · rw [if_pos (by simp [ht]), expand_compress hul hcube]
        unfold updateBlock
        rw [getD_range_map _ _ _ _ hli, hgx, hgy, hgz, if_neg hbox]
      · rw [if_neg (by simp [ht]), if_neg hbox]
  · have hrange2 : ¬(x < (injectWith g lo hi f).w ∧
        y < (injectWith g lo hi f).d ∧ z < (injectWith g lo hi f).h) := hrange
    unfold voxelAt
    rw [if_neg hrange2, if_neg hrange]
    rfl

theorem buildBlocks_length (w d h e : Nat) (fn : Nat → Nat → Nat → VoxelSample) :
    (buildBlocks w d h e fn).length = w / e * (d / e) * (h / e) := by
  simp [buildBlocks]

theorem WF_mkGridOfFn (w d h : Nat) (sx sy sz st : Rat)
    (fn : Nat → Nat → Nat → VoxelSample) (hv : validDims w d h)
    (hst : 0 < st) : WF (mkGridOfFn w d h sx sy sz st fn) := by
  obtain ⟨hw0, hd0, hh0, hwm, hdm, hhm⟩ := hv
  refine ⟨?_, hw0, hd0, hh0, hwm, hdm, hhm, ?_, ?_, hst⟩
  · show 0 < BLOCK_EXTENT
    decide
  · show (buildBlocks w d h BLOCK_EXTENT fn).length = _
    rw [buildBlocks_length]
    rfl
  · intro b hb
    simp only [mkGridOfFn, buildBlocks, List.mem_map] at hb
    obtain ⟨bi, _, rfl⟩ := hb
    exact blockOKb_compress (by simp [mkGridOfFn])

/-- The per-voxel meaning of fresh construction: every in-range voxel
holds exactly the sampled value. -/
theorem voxelAt_mkGridOfFn (w d h : Nat) (sx sy sz st : Rat)
    (fn : Nat → Nat → Nat → VoxelSample) (hv : validDims w d h)
    (hst : 0 < st) {x y z : Nat} (hx : x < w) (hy : y < d) (hz : z < h) :
    voxelAt (mkGridOfFn w d h sx sy sz st fn) x y z = some (fn x y z) := by
  have hWF := WF_mkGridOfFn w d h sx sy sz st fn hv hst
  set g := mkGridOfFn w d h sx sy sz st fn with hg
  have hx2 : x < g.w := hx
  have hy2 : y < g.d := hy
  have hz2 : z < g.h := hz
  have he : 0 < g.blockExtent := hWF.1
  have hcube : 0 < cube g.blockExtent := cube_pos he
  have hbi : blockIndexOf g x y z <
      w / BLOCK_EXTENT * (d / BLOCK_EXTENT) * (h / BLOCK_EXTENT) :=
    blockIndexOf_lt hWF hx2 hy2 hz2
  have hli : localIndexOf g.blockExtent x y z < cube BLOCK_EXTENT :=
    localIndexOf_lt hWF x y z
  obtain ⟨hgx, hgy, hgz⟩ := coords_recompose hWF hx2 hy2 hz2
  have hgx2 : gxOf (w / BLOCK_EXTENT) BLOCK_EXTENT (blockIndexOf g x y z)
      (localIndexOf g.blockExtent x y z) = x := hgx
  have hgy2 : gyOf (w / BLOCK_EXTENT) (d / BLOCK_EXTENT) BLOCK_EXTENT
      (blockIndexOf g x y z) (localIndexOf g.blockExtent x y z) = y := hgy
  have hgz2 : gzOf (w / BLOCK_EXTENT) (d / BLOCK_EXTENT) BLOCK_EXTENT
      (blockIndexOf g x y z) (localIndexOf g.blockExtent x y z) = z := hgz
  unfold voxelAt
  rw [if_pos ⟨hx2, hy2, hz2⟩]
  show some ((expand (cube g.blockExtent)
    ((buildBlocks w d h BLOCK_EXTENT fn).getD (blockIndexOf g x y z)
      (.uniform defaultSample))).getD
    (localIndexOf g.blockExtent x y z) defaultSample) = _
  unfold buildBlocks
  rw [getD_range_map _ _ _ _ hbi,
    expand_compress (by simp only [List.length_map, List.length_range]; rfl)
      hcube,
    getD_range_map _ _ _ _ hli, hgx2, hgy2, hgz2]

theorem WF_injectWith (g : VoxelGrid) (lo hi : Nat × Nat × Nat)
    (f : Nat → Nat → Nat → VoxelSample → VoxelSample) (hWF : WF g) :
    WF (injectWith g lo hi f) := by
  obtain ⟨he, hw0, hd0, hh0, hwm, hdm, hhm, hlen, hok, hst⟩ := hWF
  refine ⟨he, hw0, hd0, hh0, hwm, hdm, hhm, ?_, ?_, hst⟩
  · show ((List.range g.blocks.length).map _).length = _
    simp only [List.length_map, List.length_range]
    exact hlen
  · intro b hb
    simp only [injectWith, List.mem_map, List.mem_range] at hb
    obtain ⟨bi, hbi, rfl⟩ := hb
    by_cases ht : touchedBlock g lo hi bi = true
    · rw [if_pos ht]
      exact blockOKb_compress (updateBlock_length g lo hi f bi _)
    · rw [if_neg ht]
      apply hok
      rw [List.getD_eq_getElem _ _ hbi]
      exact List.getElem_mem _

theorem WF_ModifyBlockDistanceData (g : VoxelGrid) (c : float3)
    (ds : List Int) (hWF : WF g) : WF (ModifyBlockDistanceData g c ds) := by
  unfold ModifyBlockDistanceData
  by_cases hc : inGridP g c
  · rw [if_pos hc]
    obtain ⟨he, hw0, hd0, hh0, hwm, hdm, hhm, hlen, hok, hst⟩ := hWF
    refine ⟨he, hw0, hd0, hh0, hwm, hdm, hhm, ?_, ?_, hst⟩
    · show (g.blocks.set _ _).length = _
      rw [List.length_set]
      exact hlen
    · intro b hb
      show blockOKb (cube g.blockExtent) b = true
      rcases List.mem_or_eq_of_mem_set hb with h | h
      · exact hok b h
      · subst h
        exact blockOKb_compress (by simp)
  · rw [if_neg hc]
    exact hWF

theorem WF_ModifyBlockMaterialData (g : VoxelGrid) (c : float3)
    (ms bs : List Nat) (hWF : WF g) :
    WF (ModifyBlockMaterialData g c ms bs) := by
  unfold ModifyBlockMaterialData
  by_cases hc : inGridP g c
  · rw [if_pos hc]
    obtain ⟨he, hw0, hd0, hh0, hwm, hdm, hhm, hlen, hok, hst⟩ := hWF
    refine ⟨he, hw0, hd0, hh0, hwm, hdm, hhm, ?_, ?_, hst⟩
    · show (g.blocks.set _ _).length = _
      rw [List.length_set]
      exact hlen
    · intro b hb
      show blockOKb (cube g.blockExtent) b = true
      rcases List.mem_or_eq_of_mem_set hb with h | h
      · exact hok b h
      · subst h
        exact blockOKb_compress (by simp)
  · rw [if_neg hc]
    exact hWF

/-! ### Packer round trip -/

theorem decNat_encNatAux :
    ∀ (fuel n : Nat) (r : List Nat), n ≤ fuel →
      decNat (encNatAux fuel n ++ r) = some (n, r) := by
  intro fuel
  induction fuel with
  | zero =>
    intro n r hn
    have : n = 0 := by omega
    subst this
    simp [encNatAux, decNat]
  | succ fuel ih =>
    intro n r hn
    unfold encNatAux
    by_cases h128 : n < 128
    · rw [if_pos h128]
      simp [decNat, h128]
    · rw [if_neg h128]
      show decNat ((n % 128 + 128) :: (encNatAux fuel (n / 128) ++ r)) = _
      unfold decNat
      rw [if_neg (by omega), ih (n / 128) r (by omega)]
      show some (n % 128 + 128 - 128 + 128 * (n / 128), r) = some (n, r)
      have : n % 128 + 128 - 128 + 128 * (n / 128) = n := by omega
      rw [this]

theorem decNat_encNat (n : Nat) (r : List Nat) :
    decNat (encNat n ++ r) = some (n, r) :=
  decNat_encNatAux n n r (Nat.le_refl n)

theorem unzig_zig (i : Int) : unzig (zig i) = i := by
  unfold zig unzig
  by_cases h : 0 ≤ i
  · rw [if_pos h, if_pos (by omega)]
    omega
  · rw [if_neg h, if_neg (by omega)]
    omega

theorem decInt_encInt (i : Int) (r : List Nat) :
    decInt (encInt i ++ r) = some (i, r) := by
  unfold decInt encInt
  rw [decNat_encNat]
  show some (unzig (zig i), r) = some (i, r)
  rw [unzig_zig]

theorem decSample_encSample (s : VoxelSample) (r : List Nat) :
    decSample (encSample s ++ r) = some (s, r) := by
  simp only [encSample, decSample, List.append_assoc, decInt_encInt,
    decNat_encNat]

theorem decSamples_encSamples :
    ∀ (l : List VoxelSample) (r : List Nat),
      decSamples l.length (encSamples l ++ r) = some (l, r) := by
  intro l
  induction l with
  | nil => intro r; simp [encSamples, decSamples]
  | cons s rest ih =>
    intro r
    simp only [encSamples, List.length_cons, List.append_assoc, decSamples,
      decSample_encSample, ih]

theorem decBlock_encBlock (b : CompressedBlock) (r : List Nat) :
    decBlock (encBlock b ++ r) = some (b, r) := by
  cases b with
  | uniform s =>
    simp only [encBlock, List.cons_append, decBlock, decSample_encSample]
  | dense l =>
    simp only [encBlock, List.cons_append, List.append_assoc, decBlock,
      decNat_encNat, decSamples_encSamples]

theorem readDir_packDir :
    ∀ (bs : List CompressedBlock) (off : Nat) (tail : List Nat),
      readDir bs.length off (packDir off bs ++ tail)
        = some (bs.map fun b => (encBlock b).length, tail) := by
  intro bs
  induction bs with
  | nil => intro off tail; simp [readDir, packDir]
  | cons b bs ih =>
    intro off tail
    simp only [packDir, List.length_cons, List.append_assoc, List.map,
      readDir, decNat_encNat, eq_self_iff_true, if_true, ih]

theorem readBlocks_encBlocks (n : Nat) :
    ∀ (bs : List CompressedBlock) (tail : List Nat),
      (∀ b ∈ bs, blockOKb n b = true) →
      readBlocks n (bs.map fun b => (encBlock b).length) (encBlocks bs ++ tail)
        = some (bs, tail) := by
  intro bs
  induction bs with
  | nil => intro tail _; simp [readBlocks, encBlocks]
  | cons b bs ih =>
    intro tail hok
    simp only [List.map, encBlocks, List.append_assoc]
    unfold readBlocks
    rw [List.take_left, List.drop_left]
    have hd : decBlock (encBlock b) = some (b, []) := by
      have h := decBlock_encBlock b []
      rwa [List.append_nil] at h
    simp only [hd, hok b (List.mem_cons_self b bs), eq_self_iff_true, if_true,
      ih tail fun b2 hb2 => hok b2 (List.mem_cons_of_mem _ hb2)]

/-- Packing then loading reconstructs the grid exactly, up to the
construction-time world mapping which is not serialized. -/
theorem Load_PackForSave (g : VoxelGrid) (hWF : WF g) :
    Load (PackForSave g) = some (reloadOf g) := by
  obtain ⟨he, hw0, hd0, hh0, hwm, hdm, hhm, hlen, hok, hst⟩ := hWF
  unfold PackForSave Load
  simp only [decNat_encNat]
  rw [if_pos ⟨he, hw0, hd0, hh0, hwm, hdm, hhm⟩]
  have hnb : g.w / g.blockExtent * (g.d / g.blockExtent) *
      (g.h / g.blockExtent) = g.blocks.length := by
    rw [hlen]
    rfl
  have hnil : encBlocks g.blocks = encBlocks g.blocks ++ [] := by
    rw [List.append_nil]
  rw [hnb, hnil]
  simp only [readDir_packDir,
    readBlocks_encBlocks (cube g.blockExtent) g.blocks [] hok]
  rfl

theorem readDir_length :
    ∀ (n off : Nat) (bytes : List Nat) (szs rest : List Nat),
      readDir n off bytes = some (szs, rest) → szs.length = n := by
  intro n
  induction n with
  | zero =>
    intro off bytes szs rest h
    unfold readDir at h
    cases h
    rfl
  | succ n ih =>
    intro off bytes szs rest h
    unfold readDir at h
    split at h
    · split at h
      · split at h
        · split at h
          · cases h
            simp only [List.length_cons]
            rw [ih _ _ _ _ (by assumption)]
          · cases h
        · cases h
      · cases h
    · cases h

theorem readBlocks_spec (n : Nat) :
    ∀ (szs bytes : List Nat) (bs : List CompressedBlock) (rest : List Nat),
      readBlocks n szs bytes = some (bs, rest) →
      bs.length = szs.length ∧ ∀ b ∈ bs, blockOKb n b = true := by
  intro szs
  induction szs with
  | nil =>
    intro bytes bs rest h
    unfold readBlocks at h
    cases h
    exact ⟨rfl, by simp⟩
  | cons sz szs ih =>
    intro bytes bs rest h
    unfold readBlocks at h
    split at h
    · split at h
      · split at h
        · cases h
          obtain ⟨hl, hall⟩ := ih _ _ _ (by assumption)
          refine ⟨by simp [hl], ?_⟩
          intro b2 hb2
          rcases List.mem_cons.mp hb2 with h2 | h2
          · subst h2
            assumption
          · exact hall b2 h2
        · cases h
      · cases h
    · cases h

theorem WF_Load {bytes : List Nat} {g : VoxelGrid} (h : Load bytes = some g) :
    WF g := by
  unfold Load at h
  split at h
  case _ rest =>
    split at h
    case _ w r1 hw =>
      split at h
      case _ d r2 hd =>
        split at h
        case _ hh2 r3 hhd =>
          split at h
          case _ e r4 he2 =>
            split at h
            case isTrue hcond =>
              split at h
              case _ szs r5 hdir =>
                split at h
                case _ bs hbl =>
                  cases h
                  obtain ⟨he, hw0, hd0, hh0, hwm, hdm, hhm⟩ := hcond
                  obtain ⟨hlen, hok⟩ := readBlocks_spec _ _ _ _ _ hbl
                  refine ⟨he, hw0, hd0, hh0, hwm, hdm, hhm, ?_, hok, ?_⟩
                  · show bs.length = _
                    rw [hlen, readDir_length _ _ _ _ _ hdir]
                    rfl
                  · show (0 : Rat) < 1
                    norm_num
                case _ => cases h
              case _ => cases h
            case isFalse => cases h
          case _ => cases h
        case _ => cases h
      case _ => cases h
    case _ => cases h
  case _ => cases h

theorem WF_InjectSurface_fst (g : VoxelGrid) (p e : float3)
    (surf : VoxelSurface) (ty : InjectionType) (hWF : WF g) :
    WF (InjectSurface g p e surf ty).1 := by
  unfold InjectSurface
  cases hcb : clippedBox g p e with
  | none => exact hWF
  | some lohi =>
    obtain ⟨lo, hi⟩ := lohi
    exact WF_injectWith g lo hi _ hWF

theorem WF_InjectMaterial_fst (g : VoxelGrid) (p e : float3) (m : Nat)
    (asb : Bool) (hWF : WF g) : WF (InjectMaterial g p e m asb).1 := by
  unfold InjectMaterial
  cases hcb : clippedBox g p e with
  | none => exact hWF
  | some lohi =>
    obtain ⟨lo, hi⟩ := lohi
    exact WF_injectWith g lo hi _ hWF

/-- Every grid reachable through the public interface satisfies the
structural invariants. -/
theorem Produced_WF {g : VoxelGrid} (hp : Produced g) : WF g := by
  induction hp with
  | fromSurface h =>
    unfold CreateFromSurface at h
    split at h
    case isTrue hv =>
      cases h
      exact WF_mkGridOfFn _ _ _ _ _ _ _ _ hv.1 hv.2
    case isFalse => cases h
  | empty h =>
    unfold CreateEmpty at h
    split at h
    case isTrue hv =>
      cases h
      exact WF_mkGridOfFn _ _ _ _ _ _ _ _ hv (by norm_num)
    case isFalse => cases h
  | heightmap h =>
    unfold CreateFromHeightmap at h
    split at h
    case isTrue hv =>
      cases h
      exact WF_mkGridOfFn _ _ _ _ _ _ _ _ hv.1 (by norm_num)
    case isFalse => cases h
  | loaded h => exact WF_Load h
  | injectSurface _ ih => exact WF_InjectSurface_fst _ _ _ _ _ ih
  | injectMaterial _ ih => exact WF_InjectMaterial_fst _ _ _ _ _ ih
  | modifyDistance _ ih => exact WF_ModifyBlockDistanceData _ _ _ ih
  | modifyMaterial _ ih => exact WF_ModifyBlockMaterialData _ _ _ _ ih

/-! ### The claims -/

/-- C1: for every grid produced by `CreateFromSurface` or any sequence
of `InjectSurface`/`InjectMaterial` calls (over any construction path),
loading the buffer produced by `PackForSave` succeeds and yields a grid
whose distance, material and blend values equal those of the original at
every voxel coordinate. -/
theorem C1_pack_load_round_trip (g : VoxelGrid) (hp : Produced g) :
    Load (PackForSave g) = some (reloadOf g) ∧
    ∀ x y z : Nat, voxelAt (reloadOf g) x y z = voxelAt g x y z := by
  refine ⟨Load_PackForSave g (Produced_WF hp), ?_⟩
  intro x y z
  rfl

theorem C1_pack_load_round_trip_witness :
    Load (PackForSave gridEmpty4) = some (reloadOf gridEmpty4) ∧
    voxelAt (reloadOf gridEmpty4) 1 2 3 = voxelAt gridEmpty4 1 2 3 :=
  ⟨(C1_pack_load_round_trip gridEmpty4 (Produced.empty gridEmpty4_created)).1,
   (C1_pack_load_round_trip gridEmpty4
     (Produced.empty gridEmpty4_created)).2 1 2 3⟩

/-- C3: `Create(w, heightmap)` yields a `w×w×w` grid whose voxel at
column `(x, y)` and height `z` holds distance `z - height(x, y)` and the
single fixed default material id, for every in-range coordinate; the
heightmap must supply exactly `w*w` height values, otherwise the
construction is rejected. -/
theorem C3_heightmap_semantics (w : Nat) (hm : List Int) (g : VoxelGrid) :
    (CreateFromHeightmap w hm = some g →
      GetWidth g = w ∧ GetDepth g = w ∧ GetHeight g = w ∧
      ∀ x y z : Nat, x < w → y < w → z < w →
        voxelAt g x y z =
          some ⟨(z : Int) - hm.getD (y * w + x) 0, DEFAULT_MATERIAL, 0⟩) ∧
    (hm.length ≠ w * w → CreateFromHeightmap w hm = none) := by
  constructor
  · intro h
    unfold CreateFromHeightmap at h
    split at h
    case isTrue hv =>
      cases h
      refine ⟨rfl, rfl, rfl, ?_⟩
      intro x y z hx hy hz
      exact voxelAt_mkGridOfFn w w w 0 0 0 1 _ hv.1 (by norm_num) hx hy hz
    case isFalse => cases h
  · intro hne
    unfold CreateFromHeightmap
    rw [if_neg fun hc => hne hc.2]

theorem C3_heightmap_semantics_witness :
    voxelAt gridHm4 1 2 3 =
      some ⟨((3 : Nat) : Int) - (List.replicate 16 (0 : Int)).getD (2 * 4 + 1) 0,
        DEFAULT_MATERIAL, 0⟩ ∧
    CreateFromHeightmap 4 [] = none :=
  ⟨((C3_heightmap_semantics 4 (List.replicate 16 0) gridHm4).1
      gridHm4_created).2.2.2 1 2 3 (by decide) (by decide) (by decide),
   (C3_heightmap_semantics 4 [] gridHm4).2 (by decide)⟩

/-- C4: every `Create` overload fails exactly when a requested dimension
is non-positive or not a multiple of the fixed block extent (for the
heightmap overload, additionally when the heightmap does not supply
`w*w` values; for the surface overload, additionally when the sampling
step is not positive); on success `GetWidth`/`GetDepth`/`GetHeight`
echo the requested dimensions exactly. -/
theorem C4_create_validation (w d h : Nat) (sx sy sz st : Rat)
    (surf : VoxelSurface) (hm : List Int) :
    ((CreateFromSurface w d h sx sy sz st surf).isSome = true ↔
      validDims w d h ∧ 0 < st) ∧
    ((CreateEmpty w d h).isSome = true ↔ validDims w d h) ∧
    ((CreateFromHeightmap w hm).isSome = true ↔
      validDims w w w ∧ hm.length = w * w) ∧
    (∀ g, CreateFromSurface w d h sx sy sz st surf = some g →
      GetWidth g = w ∧ GetDepth g = d ∧ GetHeight g = h) ∧
    (∀ g, CreateEmpty w d h = some g →
      GetWidth g = w ∧ GetDepth g = d ∧ GetHeight g = h) ∧
    (∀ g, CreateFromHeightmap w hm = some g →
      GetWidth g = w ∧ GetDepth g = w ∧ GetHeight g = w) := by
  refine ⟨?_, ?_, ?_, ?_, ?_, ?_⟩
  · by_cases hp : validDims w d h ∧ 0 < st
    · simp [CreateFromSurface, hp]
    · simp [CreateFromSurface, hp]
  · by_cases hp : validDims w d h
    · simp [CreateEmpty, hp]
    · simp [CreateEmpty, hp]
  · by_cases hp : validDims w w w ∧ hm.length = w * w
    · simp [CreateFromHeightmap, hp]
    · simp [CreateFromHeightmap, hp]
  · intro g hg
    unfold CreateFromSurface at hg
    split at hg
    · cases hg
      exact ⟨rfl, rfl, rfl⟩
    · cases hg
  · intro g hg
    unfold CreateEmpty at hg
    split at hg
    · cases hg
      exact ⟨rfl, rfl, rfl⟩
    · cases hg
  · intro g hg
    unfold CreateFromHeightmap at hg
    split at hg
    · cases hg
      exact ⟨rfl, rfl, rfl⟩
    · cases hg

theorem C4_create_validation_witness :
    (CreateEmpty 4 4 4).isSome = true ∧
    (CreateEmpty 5 4 4).isSome = false ∧
    GetWidth gridEmpty4 = 4 ∧ GetDepth gridEmpty4 = 4 ∧
    GetHeight gridEmpty4 = 4 :=
  ⟨(C4_create_validation 4 4 4 0 0 0 1 constSurface []).2.1.mpr (by decide),
   by
     have h := (C4_create_validation 5 4 4 0 0 0 1 constSurface []).2.1
     have h2 : ¬(CreateEmpty 5 4 4).isSome = true := fun hs =>
       absurd (h.mp hs) (by decide)
     simpa using h2,
   (C4_create_validation 4 4 4 0 0 0 1 constSurface []).2.2.2.2.1 gridEmpty4
     gridEmpty4_created⟩

/-- C5: with coordinates outside `[0,w)×[0,d)×[0,h)`, the block readers
report failure and return no data, and the block modifiers are no-ops:
the grid (hence its memory accounting and every in-range voxel sample)
is unchanged. -/
theorem C5_out_of_range_safety (g : VoxelGrid) (c : float3) (ds : List Int)
    (ms bls : List Nat) (hout : ¬ inGridP g c) :
    GetBlockDistanceData g c = none ∧
    GetBlockMaterialData g c = none ∧
    ModifyBlockDistanceData g c ds = g ∧
    ModifyBlockMaterialData g c ms bls = g ∧
    GetGridBlocksMemorySize (ModifyBlockDistanceData g c ds) =
      GetGridBlocksMemorySize g ∧
    GetGridBlocksMemorySize (ModifyBlockMaterialData g c ms bls) =
      GetGridBlocksMemorySize g ∧
    (∀ x y z : Nat, voxelAt (ModifyBlockDistanceData g c ds) x y z =
      voxelAt g x y z) ∧
    (∀ x y z : Nat, voxelAt (ModifyBlockMaterialData g c ms bls) x y z =
      voxelAt g x y z) := by
  have h1 : ModifyBlockDistanceData g c ds = g := by
    unfold ModifyBlockDistanceData
    rw [if_neg hout]
  have h2 : ModifyBlockMaterialData g c ms bls = g := by
    unfold ModifyBlockMaterialData
    rw [if_neg hout]
  refine ⟨?_, ?_, h1, h2, by rw [h1], by rw [h2],
    fun x y z => by rw [h1], fun x y z => by rw [h2]⟩
  · unfold GetBlockDistanceData
    rw [if_neg hout]
  · unfold GetBlockMaterialData
    rw [if_neg hout]

theorem C5_out_of_range_safety_witness :
    GetBlockDistanceData gridEmpty4 ⟨100, 0, 0⟩ = none ∧
    ModifyBlockDistanceData gridEmpty4 ⟨100, 0, 0⟩ [0] = gridEmpty4 ∧
    voxelAt (ModifyBlockDistanceData gridEmpty4 ⟨100, 0, 0⟩ [0]) 1 2 3 =
      voxelAt gridEmpty4 1 2 3 :=
  ⟨(C5_out_of_range_safety gridEmpty4 ⟨100, 0, 0⟩ [0] [] []
      (by decide)).1,
   (C5_out_of_range_safety gridEmpty4 ⟨100, 0, 0⟩ [0] [] []
      (by decide)).2.2.1,
   (C5_out_of_range_safety gridEmpty4 ⟨100, 0, 0⟩ [0] [] []
      (by decide)).2.2.2.2.2.2.1 1 2 3⟩

theorem blockMemSize_le {n : Nat} {b : CompressedBlock} (hn : 0 < n)
    (hok : blockOKb n b = true) :
    blockMemSize b ≤ n * BYTES_PER_VOXEL_SAMPLE := by
  cases b with
  | uniform s =>
    show UNIFORM_BLOCK_SIZE ≤ n * BYTES_PER_VOXEL_SAMPLE
    have h1 : 1 * BYTES_PER_VOXEL_SAMPLE ≤ n * BYTES_PER_VOXEL_SAMPLE :=
      Nat.mul_le_mul_right _ hn
    simpa using h1
  | dense l =>
    have hl : l.length = n := by simpa [blockOKb] using hok
    show BYTES_PER_VOXEL_SAMPLE * l.length ≤ n * BYTES_PER_VOXEL_SAMPLE
    rw [hl, Nat.mul_comm]

theorem isUniformBlock_compress_const (n : Nat) (s : VoxelSample)
    (hn : 0 < n) :
    isUniformBlock (compress ((List.range n).map fun _ => s)) = true := by
  have hrep : ((List.range n).map fun _ => s) = List.replicate n s := by
    have h1 := List.eq_replicate_of_mem
      (l := (List.range n).map fun _ => s) (a := s) ?_
    · rw [h1]
      simp
    · intro b hb
      obtain ⟨_, _, rfl⟩ := List.mem_map.mp hb
      rfl
  rw [hrep]
  cases n with
  | zero => omega
  | succ m =>
    rw [List.replicate_succ]
    show isUniformBlock (compress (s :: List.replicate m s)) = true
    have hall : (List.replicate m s).all (· == s) = true := by
      simp [List.all_eq_true, List.mem_replicate]
    simp [compress, hall, isUniformBlock]

/-- C7: after any sequence of public operations, the compressed memory
accounting never exceeds the fully-expanded size
`numBlocks * blockExtent³ * bytesPerVoxelSample`; when every block is
uniform it equals the constant per-block minimum, and every block of a
freshly created empty grid is uniform. -/
theorem C7_memory_accounting (g : VoxelGrid) (hp : Produced g)
    (w d h : Nat) (g0 : VoxelGrid) (h0 : CreateEmpty w d h = some g0) :
    GetGridBlocksMemorySize g ≤
      g.numBlocks * cube g.blockExtent * BYTES_PER_VOXEL_SAMPLE ∧
    ((∀ b ∈ g.blocks, isUniformBlock b = true) →
      GetGridBlocksMemorySize g = g.numBlocks * UNIFORM_BLOCK_SIZE) ∧
    (∀ b ∈ g0.blocks, isUniformBlock b = true) := by
  obtain ⟨he, hw0, hd0, hh0, hwm, hdm, hhm, hlen, hok, hst⟩ := Produced_WF hp
  refine ⟨?_, ?_, ?_⟩
  · have hb : ∀ x ∈ g.blocks.map blockMemSize,
        x ≤ cube g.blockExtent * BYTES_PER_VOXEL_SAMPLE := by
      intro x hx
      obtain ⟨b, hbmem, rfl⟩ := List.mem_map.mp hx
      exact blockMemSize_le (cube_pos he) (hok b hbmem)
    have hsum := List.sum_le_card_nsmul _ _ hb
    rw [List.length_map, hlen, smul_eq_mul] at hsum
    unfold GetGridBlocksMemorySize
    calc (g.blocks.map blockMemSize).sum
        ≤ g.numBlocks * (cube g.blockExtent * BYTES_PER_VOXEL_SAMPLE) := hsum
      _ = g.numBlocks * cube g.blockExtent * BYTES_PER_VOXEL_SAMPLE := by ring
  · intro hu
    have hc : ∀ x ∈ g.blocks.map blockMemSize, x = UNIFORM_BLOCK_SIZE := by
      intro x hx
      obtain ⟨b, hbmem, rfl⟩ := List.mem_map.mp hx
      cases b with
      | uniform s => rfl
      | dense l => simpa [isUniformBlock] using hu _ hbmem
    have hrep := List.eq_replicate_of_mem hc
    unfold GetGridBlocksMemorySize
    rw [hrep, List.sum_replicate, smul_eq_mul, List.length_map, hlen]
  · unfold CreateEmpty at h0
    split at h0
    case isTrue hv =>
      cases h0
      intro b hb
      simp only [mkGridOfFn, buildBlocks, List.mem_map] at hb
      obtain ⟨bi, _, rfl⟩ := hb
      exact isUniformBlock_compress_const _ _ (cube_pos (by decide))
    case isFalse => cases h0

theorem C7_memory_accounting_witness :
    GetGridBlocksMemorySize gridEmpty4 ≤
      gridEmpty4.numBlocks * cube gridEmpty4.blockExtent *
        BYTES_PER_VOXEL_SAMPLE ∧
    GetGridBlocksMemorySize gridEmpty4 =
      gridEmpty4.numBlocks * UNIFORM_BLOCK_SIZE :=
  ⟨(C7_memory_accounting gridEmpty4 (Produced.empty gridEmpty4_created)
      4 4 4 gridEmpty4 gridEmpty4_created).1,
   (C7_memory_accounting gridEmpty4 (Produced.empty gridEmpty4_created)
      4 4 4 gridEmpty4 gridEmpty4_created).2.1 (by decide)⟩

theorem mergeSample_add_idem (c s : VoxelSample) :
    mergeSample .IT_Add c (mergeSample .IT_Add c s) =
      mergeSample .IT_Add c s := by
  unfold mergeSample
  by_cases h : c.distance < s.distance
  · rw [if_pos h, if_neg (lt_irrefl _)]
  · rw [if_neg h, if_neg h]

/-- A second pass of an idempotent per-voxel merge over the same box
leaves the store exactly as after the first pass. -/
theorem injectWith_idem (g : VoxelGrid) (lo hi : Nat × Nat × Nat)
    (f : Nat → Nat → Nat → VoxelSample → VoxelSample) (hWF : WF g)
    (hf : ∀ x y z s, f x y z (f x y z s) = f x y z s) :
    injectWith (injectWith g lo hi f) lo hi f = injectWith g lo hi f := by
  have he : 0 < g.blockExtent := hWF.1
  have hcube : 0 < cube g.blockExtent := cube_pos he
  have hblocks : (injectWith (injectWith g lo hi f) lo hi f).blocks
      = (injectWith g lo hi f).blocks := by
    show (List.range (injectWith g lo hi f).blocks.length).map _
        = (injectWith g lo hi f).blocks
    rw [injectWith_blocks_length]
    show _ = (List.range g.blocks.length).map _
    apply List.map_congr_left
    intro bi hbi
    have hbi2 : bi < g.blocks.length := List.mem_range.mp hbi
    have ht12 : touchedBlock (injectWith g lo hi f) lo hi bi
        = touchedBlock g lo hi bi := rfl
    have hgetD : (injectWith g lo hi f).blocks.getD bi
          (.uniform defaultSample)
        = if touchedBlock g lo hi bi then
            compress (updateBlock g lo hi f bi
              (g.blocks.getD bi (.uniform defaultSample)))
          else g.blocks.getD bi (.uniform defaultSample) := by
      show ((List.range g.blocks.length).map _).getD bi _ = _
      rw [getD_range_map _ _ _ _ hbi2]
    have hup : ∀ b, updateBlock (injectWith g lo hi f) lo hi f bi b
        = updateBlock g lo hi f bi b := fun b => rfl
    rw [ht12, hup, hgetD]
    by_cases ht : touchedBlock g lo hi bi = true
    · simp only [ht, eq_self_iff_true, if_true]
      congr 1
      unfold updateBlock
      apply List.map_congr_left
      intro li hli
      have hli2 : li < cube g.blockExtent := List.mem_range.mp hli
      rw [expand_compress (by simp) hcube]
      rw [getD_range_map _ _ _ _ hli2]
      by_cases hbox : inBoxP lo hi (gxOf g.wb g.blockExtent bi li)
          (gyOf g.wb g.db g.blockExtent bi li)
          (gzOf g.wb g.db g.blockExtent bi li)
      · simp only [hbox, if_true, hf]
      · simp only [hbox, if_false]
    · rw [Bool.not_eq_true] at ht
      simp only [ht, Bool.false_eq_true, if_false]
  have hrepr : injectWith (injectWith g lo hi f) lo hi f
      = { injectWith g lo hi f with
          blocks := (injectWith (injectWith g lo hi f) lo hi f).blocks } :=
    rfl
  rw [hrepr, hblocks]

/-- Injecting the same surface with `IT_Add` twice over the same region
yields exactly the same grid (and reported region) as injecting once. -/
theorem InjectSurface_add_idem (g : VoxelGrid) (p ex : float3)
    (surf : VoxelSurface) (hWF : WF g) :
    InjectSurface (InjectSurface g p ex surf .IT_Add).1 p ex surf .IT_Add
      = InjectSurface g p ex surf .IT_Add := by
  cases hcb : clippedBox g p ex with
  | none =>
    have h1 : InjectSurface g p ex surf .IT_Add = (g, (p, p)) := by
      unfold InjectSurface
      rw [hcb]
    rw [h1]
    exact h1
  | some lohi =>
    obtain ⟨lo, hi⟩ := lohi
    have h1 : InjectSurface g p ex surf .IT_Add =
        (injectWith g lo hi fun x y z s =>
          mergeSample .IT_Add
            (surf ⟨g.startX + (x : Rat) * g.step, g.startY + (y : Rat) * g.step,
              g.startZ + (z : Rat) * g.step⟩) s,
         regionOf g lo hi) := by
      unfold InjectSurface
      rw [hcb]
    rw [h1]
    have hcb1 : clippedBox
        (injectWith g lo hi fun x y z s =>
          mergeSample .IT_Add
            (surf ⟨g.startX + (x : Rat) * g.step, g.startY + (y : Rat) * g.step,
              g.startZ + (z : Rat) * g.step⟩) s) p ex = some (lo, hi) := hcb
    unfold InjectSurface
    rw [hcb1]
    refine Prod.ext ?_ rfl
    show injectWith
        (injectWith g lo hi fun x y z s =>
          mergeSample .IT_Add
            (surf ⟨g.startX + (x : Rat) * g.step, g.startY + (y : Rat) * g.step,
              g.startZ + (z : Rat) * g.step⟩) s) lo hi
        (fun x y z s =>
          mergeSample .IT_Add
            (surf ⟨g.startX + (x : Rat) * g.step, g.startY + (y : Rat) * g.step,
              g.startZ + (z : Rat) * g.step⟩) s) = _
    exact injectWith_idem g lo hi _ hWF fun x y z s => mergeSample_add_idem _ _

/-- C6: performing `InjectSurface` with `IT_Add` twice in succession
with the same arguments yields exactly the same voxel samples at every
coordinate as performing it once. -/
theorem C6_add_union_idempotent (g : VoxelGrid) (p ex : float3)
    (surf : VoxelSurface) (hWF : WF g) :
    ∀ x y z : Nat,
      voxelAt (InjectSurface (InjectSurface g p ex surf .IT_Add).1
          p ex surf .IT_Add).1 x y z
        = voxelAt (InjectSurface g p ex surf .IT_Add).1 x y z := by
  intro x y z
  rw [InjectSurface_add_idem g p ex surf hWF]

theorem C6_add_union_idempotent_witness :
    voxelAt (InjectSurface (InjectSurface gridEmpty4 ⟨0, 0, 0⟩ ⟨2, 2, 2⟩
        constSurface .IT_Add).1 ⟨0, 0, 0⟩ ⟨2, 2, 2⟩ constSurface .IT_Add).1
        1 2 3
      = voxelAt (InjectSurface gridEmpty4 ⟨0, 0, 0⟩ ⟨2, 2, 2⟩
          constSurface .IT_Add).1 1 2 3 :=
  C6_add_union_idempotent gridEmpty4 ⟨0, 0, 0⟩ ⟨2, 2, 2⟩ constSurface
    (by decide) 1 2 3

/-- C8: within the clipped injection region `InjectMaterial` keeps the
stored distance, installs the given material id and moves the blend
monotonically — saturating at 255 when `addSubtractBlend` is set,
flooring at 0 otherwise; voxels outside the clipped region (or any voxel
when the clip is empty) are unchanged. -/
theorem C8_inject_material_semantics (g : VoxelGrid) (p ex : float3)
    (m : Nat) (asb : Bool) (lo hi : Nat × Nat × Nat) (x y z : Nat)
    (s : VoxelSample) (hWF : WF g) (hv : voxelAt g x y z = some s) :
    (clippedBox g p ex = some (lo, hi) → inBoxP lo hi x y z →
      voxelAt (InjectMaterial g p ex m asb).1 x y z =
        some ⟨s.distance, m,
          if asb then min 255 (s.blend + BLEND_STEP)
          else s.blend - BLEND_STEP⟩ ∧
      (asb = true → s.blend ≤ 255 →
        s.blend ≤ blendBump asb s.blend ∧ blendBump asb s.blend ≤ 255) ∧
      (asb = false → blendBump asb s.blend ≤ s.blend)) ∧
    (clippedBox g p ex = some (lo, hi) → ¬ inBoxP lo hi x y z →
      voxelAt (InjectMaterial g p ex m asb).1 x y z = some s) ∧
    (clippedBox g p ex = none →
      voxelAt (InjectMaterial g p ex m asb).1 x y z = some s) := by
  refine ⟨?_, ?_, ?_⟩
  · intro hcb hbox
    have h1 : (InjectMaterial g p ex m asb).1 =
        injectWith g lo hi fun _ _ _ s2 =>
          ⟨s2.distance, m, blendBump asb s2.blend⟩ := by
      unfold InjectMaterial
      rw [hcb]
    rw [h1, voxelAt_injectWith g lo hi _ hWF x y z, hv]
    refine ⟨?_, ?_, ?_⟩
    · simp only [Option.map_some', hbox, if_true]
      unfold blendBump
      rfl
    · intro hasb hb255
      subst hasb
      unfold blendBump
      constructor
      · simp only [if_true]
        omega
      · simp only [if_true]
        omega
    · intro hasb
      subst hasb
      unfold blendBump
      simp only [Bool.false_eq_true, if_false]
      omega
  · intro hcb hbox
    have h1 : (InjectMaterial g p ex m asb).1 =
        injectWith g lo hi fun _ _ _ s2 =>
          ⟨s2.distance, m, blendBump asb s2.blend⟩ := by
      unfold InjectMaterial
      rw [hcb]
    rw [h1, voxelAt_injectWith g lo hi _ hWF x y z, hv]
    simp only [Option.map_some', hbox, if_false]
  · intro hcb
    have h1 : (InjectMaterial g p ex m asb).1 = g := by
      unfold InjectMaterial
      rw [hcb]
    rw [h1, hv]

/-- The clipped box of a unit-cube request at the origin of the concrete
empty grid. -/
theorem clippedBox_gridEmpty4_unit :
    clippedBox gridEmpty4 ⟨0, 0, 0⟩ ⟨1, 1, 1⟩ = some ((0, 0, 0), (1, 1, 1)) := by
  show clippedBox ⟨4, 4, 4, 4, 0, 0, 0, 1, [.uniform defaultSample]⟩
    ⟨0, 0, 0⟩ ⟨1, 1, 1⟩ = _
  unfold clippedBox clipAxis
  norm_num

/-- A far-away request clips to the empty box on the concrete empty
grid. -/
theorem clippedBox_gridEmpty4_far :
    clippedBox gridEmpty4 ⟨100, 100, 100⟩ ⟨1, 1, 1⟩ = none := by
  show clippedBox ⟨4, 4, 4, 4, 0, 0, 0, 1, [.uniform defaultSample]⟩
    ⟨100, 100, 100⟩ ⟨1, 1, 1⟩ = _
  unfold clippedBox clipAxis
  norm_num

theorem C8_inject_material_semantics_witness :
    voxelAt (InjectMaterial gridEmpty4 ⟨0, 0, 0⟩ ⟨1, 1, 1⟩ 7 true).1 1 1 0 =
      some ⟨defaultSample.distance, 7,
        if true then min 255 (defaultSample.blend + BLEND_STEP)
        else defaultSample.blend - BLEND_STEP⟩ ∧
    voxelAt (InjectMaterial gridEmpty4 ⟨0, 0, 0⟩ ⟨1, 1, 1⟩ 7 true).1 3 3 3 =
      some defaultSample :=
  ⟨((C8_inject_material_semantics gridEmpty4 ⟨0, 0, 0⟩ ⟨1, 1, 1⟩ 7 true
      ((0, 0, 0)) ((1, 1, 1)) 1 1 0 defaultSample (by decide) (by decide)).1
      clippedBox_gridEmpty4_unit (by decide)).1,
   (C8_inject_material_semantics gridEmpty4 ⟨0, 0, 0⟩ ⟨1, 1, 1⟩ 7 true
      ((0, 0, 0)) ((1, 1, 1)) 3 3 3 defaultSample (by decide) (by decide)).2.1
      clippedBox_gridEmpty4_unit (by decide)⟩

/-- Bounds on the continuous coordinates of one clipped axis: the
reported endpoints stay inside both the requested interval and the
grid's own extent. -/
theorem clipAxis_region_bounds (p ex s st : Rat) (dim : Nat) (lo hi : Int)
    (hst : 0 < st) (hdim : 0 < dim)
    (hlo : lo = max 0 ⌈(p - s) / st⌉)
    (hhi : hi = min ((dim : Int) - 1) ⌊(p + ex - s) / st⌋)
    (hle : lo ≤ hi) :
    p ≤ s + (lo.toNat : Rat) * st ∧
    s ≤ s + (lo.toNat : Rat) * st ∧
    s + (lo.toNat : Rat) * st ≤ s + (hi.toNat : Rat) * st ∧
    s + (hi.toNat : Rat) * st ≤ p + ex ∧
    s + (hi.toNat : Rat) * st ≤ s + ((dim - 1 : Nat) : Rat) * st := by
  have hlo0 : 0 ≤ lo := by
    rw [hlo]
    exact le_max_left _ _
  have hhi0 : 0 ≤ hi := le_trans hlo0 hle
  have hcastlo : ((lo.toNat : Nat) : Rat) = ((lo : Int) : Rat) := by
    have h2 := Int.toNat_of_nonneg hlo0
    exact_mod_cast congrArg (fun n : Int => (n : Rat)) h2
  have hcasthi : ((hi.toNat : Nat) : Rat) = ((hi : Int) : Rat) := by
    have h2 := Int.toNat_of_nonneg hhi0
    exact_mod_cast congrArg (fun n : Int => (n : Rat)) h2
  have hceil : (⌈(p - s) / st⌉ : Int) ≤ lo := by
    rw [hlo]
    exact le_max_right _ _
  have hp : p - s ≤ (lo : Rat) * st :=
    (div_le_iff₀ hst).mp (le_trans (Int.le_ceil _) (Int.cast_le.mpr hceil))
  have hfl : hi ≤ ⌊(p + ex - s) / st⌋ := by
    rw [hhi]
    exact min_le_right _ _
  have hq : (hi : Rat) * st ≤ p + ex - s :=
    (le_div_iff₀ hst).mp (le_trans (Int.cast_le.mpr hfl) (Int.floor_le _))
  have hdim1 : hi ≤ (dim : Int) - 1 := by
    rw [hhi]
    exact min_le_left _ _
  have hhiNat : hi.toNat ≤ dim - 1 := by omega
  refine ⟨?_, ?_, ?_, ?_, ?_⟩
  · rw [hcastlo]
    linarith
  · have : 0 ≤ (lo.toNat : Rat) * st :=
      mul_nonneg (Nat.cast_nonneg _) (le_of_lt hst)
    linarith
  · have h3 : (lo.toNat : Rat) ≤ (hi.toNat : Rat) :=
      Nat.cast_le.mpr (Int.toNat_le_toNat hle)
    have := mul_le_mul_of_nonneg_right h3 (le_of_lt hst)
    linarith
  · rw [hcasthi]
    linarith
  · have h3 : ((hi.toNat : Nat) : Rat) ≤ ((dim - 1 : Nat) : Rat) :=
      Nat.cast_le.mpr hhiNat
    have := mul_le_mul_of_nonneg_right h3 (le_of_lt hst)
    linarith

/-- C2: the region reported by `InjectSurface` lies inside the
intersection of the requested box `[position, position + extents]` and
the grid's own bounds (per axis: between the grid start and the last
voxel's coordinate); when the request clips to the empty box the region
is degenerate (`min = max`) and every sample of the grid is unchanged. -/
theorem C2_region_containment (g : VoxelGrid) (p ex : float3)
    (surf : VoxelSurface) (ty : InjectionType) (lo hi : Nat × Nat × Nat)
    (hWF : WF g) :
    (clippedBox g p ex = some (lo, hi) →
      (p.x ≤ (InjectSurface g p ex surf ty).2.1.x ∧
        g.startX ≤ (InjectSurface g p ex surf ty).2.1.x ∧
        (InjectSurface g p ex surf ty).2.1.x ≤
          (InjectSurface g p ex surf ty).2.2.x ∧
        (InjectSurface g p ex surf ty).2.2.x ≤ p.x + ex.x ∧
        (InjectSurface g p ex surf ty).2.2.x ≤
          g.startX + ((g.w - 1 : Nat) : Rat) * g.step) ∧
      (p.y ≤ (InjectSurface g p ex surf ty).2.1.y ∧
        g.startY ≤ (InjectSurface g p ex surf ty).2.1.y ∧
        (InjectSurface g p ex surf ty).2.1.y ≤
          (InjectSurface g p ex surf ty).2.2.y ∧
        (InjectSurface g p ex surf ty).2.2.y ≤ p.y + ex.y ∧
        (InjectSurface g p ex surf ty).2.2.y ≤
          g.startY + ((g.d - 1 : Nat) : Rat) * g.step) ∧
      (p.z ≤ (InjectSurface g p ex surf ty).2.1.z ∧
        g.startZ ≤ (InjectSurface g p ex surf ty).2.1.z ∧
        (InjectSurface g p ex surf ty).2.1.z ≤
          (InjectSurface g p ex surf ty).2.2.z ∧
        (InjectSurface g p ex surf ty).2.2.z ≤ p.z + ex.z ∧
        (InjectSurface g p ex surf ty).2.2.z ≤
          g.startZ + ((g.h - 1 : Nat) : Rat) * g.step)) ∧
    (clippedBox g p ex = none →
      (InjectSurface g p ex surf ty).2.1 =
        (InjectSurface g p ex surf ty).2.2 ∧
      (InjectSurface g p ex surf ty).1 = g ∧
      ∀ x y z : Nat,
        voxelAt (InjectSurface g p ex surf ty).1 x y z = voxelAt g x y z) := by
  constructor
  · intro hcb
    have hr : (InjectSurface g p ex surf ty).2 = regionOf g lo hi := by
      unfold InjectSurface
      rw [hcb]
    obtain ⟨he, hw0, hd0, hh0, hwm, hdm, hhm, hlen, hok, hst⟩ := hWF
    unfold clippedBox at hcb
    split at hcb
    case isTrue hcond =>
      simp only [Option.some.injEq, Prod.mk.injEq] at hcb
      obtain ⟨rfl, rfl⟩ := hcb
      obtain ⟨hc1, hc2, hc3⟩ := hcond
      rw [hr]
      simp only [regionOf]
      refine ⟨?_, ?_, ?_⟩
      · exact clipAxis_region_bounds p.x ex.x g.startX g.step g.w _ _
          hst hw0 rfl rfl hc1
      · exact clipAxis_region_bounds p.y ex.y g.startY g.step g.d _ _
          hst hd0 rfl rfl hc2
      · exact clipAxis_region_bounds p.z ex.z g.startZ g.step g.h _ _
          hst hh0 rfl rfl hc3
    case isFalse => exact Option.noConfusion hcb
  · intro hcb
    have h1 : InjectSurface g p ex surf ty = (g, (p, p)) := by
      unfold InjectSurface
      rw [hcb]
    rw [h1]
    exact ⟨rfl, rfl, fun x y z => rfl⟩

theorem C2_region_containment_witness :
    (InjectSurface gridEmpty4 ⟨100, 100, 100⟩ ⟨1, 1, 1⟩ constSurface
        .IT_Add).2.1 =
      (InjectSurface gridEmpty4 ⟨100, 100, 100⟩ ⟨1, 1, 1⟩ constSurface
        .IT_Add).2.2 ∧
    (InjectSurface gridEmpty4 ⟨100, 100, 100⟩ ⟨1, 1, 1⟩ constSurface
        .IT_Add).1 = gridEmpty4 ∧
    voxelAt (InjectSurface gridEmpty4 ⟨100, 100, 100⟩ ⟨1, 1, 1⟩ constSurface
        .IT_Add).1 1 2 3 = voxelAt gridEmpty4 1 2 3 :=
  ⟨((C2_region_containment gridEmpty4 ⟨100, 100, 100⟩ ⟨1, 1, 1⟩ constSurface
      .IT_Add (0, 0, 0) (0, 0, 0) (by decide)).2 clippedBox_gridEmpty4_far).1,
   ((C2_region_containment gridEmpty4 ⟨100, 100, 100⟩ ⟨1, 1, 1⟩ constSurface
      .IT_Add (0, 0, 0) (0, 0, 0) (by decide)).2
        clippedBox_gridEmpty4_far).2.1,
   ((C2_region_containment gridEmpty4 ⟨100, 100, 100⟩ ⟨1, 1, 1⟩ constSurface
      .IT_Add (0, 0, 0) (0, 0, 0) (by decide)).2
        clippedBox_gridEmpty4_far).2.2 1 2 3⟩

theorem list_eq_of_getD {α : Type} {l l2 : List α} (d : α)
    (hlen : l.length = l2.length)
    (h : ∀ i, i < l.length → l.getD i d = l2.getD i d) : l = l2 := by
  apply List.ext_getElem hlen
  intro i h1 h2
  have h3 := h i h1
  rwa [List.getD_eq_getElem _ _ h1, List.getD_eq_getElem _ _ h2] at h3

theorem mul_add_div_mod (e q r : Nat) (he : 0 < e) (hr : r < e) :
    (q * e + r) / e = q ∧ (q * e + r) % e = r := by
  constructor
  · rw [Nat.add_comm, Nat.mul_comm, Nat.add_mul_div_left _ _ he,
      Nat.div_eq_of_lt hr]
    omega
  · rw [Nat.add_comm, Nat.mul_comm, Nat.add_mul_mod_self_left,
      Nat.mod_eq_of_lt hr]

/-- Reading back the sample of local offset `li` of block `bi` through
`voxelAt` of the recomposed global coordinates. -/
theorem voxelAt_coords (g : VoxelGrid) (hWF : WF g) {bi li : Nat}
    (hbi : bi < g.numBlocks) (hli : li < cube g.blockExtent) :
    voxelAt g (gxOf g.wb g.blockExtent bi li)
        (gyOf g.wb g.db g.blockExtent bi li)
        (gzOf g.wb g.db g.blockExtent bi li)
      = some ((expand (cube g.blockExtent)
          (g.blocks.getD bi (.uniform defaultSample))).getD li
            defaultSample) := by
  obtain ⟨he, hw0, hd0, hh0, hwm, hdm, hhm, hlen, hok, hst⟩ := hWF
  have hwb : 0 < g.wb :=
    Nat.div_pos (Nat.le_of_dvd hw0 (Nat.dvd_of_mod_eq_zero hwm)) he
  have hdb : 0 < g.db :=
    Nat.div_pos (Nat.le_of_dvd hd0 (Nat.dvd_of_mod_eq_zero hdm)) he
  have hwbe : g.wb * g.blockExtent = g.w :=
    Nat.div_mul_cancel (Nat.dvd_of_mod_eq_zero hwm)
  have hdbe : g.db * g.blockExtent = g.d :=
    Nat.div_mul_cancel (Nat.dvd_of_mod_eq_zero hdm)
  have hhbe : g.hb * g.blockExtent = g.h :=
    Nat.div_mul_cancel (Nat.dvd_of_mod_eq_zero hhm)
  have hbx : bi % g.wb < g.wb := Nat.mod_lt _ hwb
  have hby : bi / g.wb % g.db < g.db := Nat.mod_lt _ hdb
  have hbz : bi / (g.wb * g.db) < g.hb := by
    rw [Nat.div_lt_iff_lt_mul (Nat.mul_pos hwb hdb)]
    calc bi < g.numBlocks := hbi
      _ = g.hb * (g.wb * g.db) := by unfold VoxelGrid.numBlocks; ring
  have hlx : li % g.blockExtent < g.blockExtent := Nat.mod_lt _ he
  have hly : li / g.blockExtent % g.blockExtent < g.blockExtent :=
    Nat.mod_lt _ he
  have hlz : li / (g.blockExtent * g.blockExtent) < g.blockExtent := by
    rw [Nat.div_lt_iff_lt_mul (Nat.mul_pos he he)]
    calc li < cube g.blockExtent := hli
      _ = g.blockExtent * (g.blockExtent * g.blockExtent) := by
        unfold cube; ring
  have hX : gxOf g.wb g.blockExtent bi li < g.w := by
    unfold gxOf
    calc bi % g.wb * g.blockExtent + li % g.blockExtent
        < bi % g.wb * g.blockExtent + g.blockExtent := by omega
      _ = (bi % g.wb + 1) * g.blockExtent := by ring
      _ ≤ g.wb * g.blockExtent := Nat.mul_le_mul_right _ (by omega)
      _ = g.w := hwbe
  have hY : gyOf g.wb g.db g.blockExtent bi li < g.d := by
    unfold gyOf
    calc bi / g.wb % g.db * g.blockExtent + li / g.blockExtent % g.blockExtent
        < bi / g.wb % g.db * g.blockExtent + g.blockExtent := by omega
      _ = (bi / g.wb % g.db + 1) * g.blockExtent := by ring
      _ ≤ g.db * g.blockExtent := Nat.mul_le_mul_right _ (by omega)
      _ = g.d := hdbe
  have hZ : gzOf g.wb g.db g.blockExtent bi li < g.h := by
    unfold gzOf
    calc bi / (g.wb * g.db) * g.blockExtent +
          li / (g.blockExtent * g.blockExtent)
        < bi / (g.wb * g.db) * g.blockExtent + g.blockExtent := by omega
      _ = (bi / (g.wb * g.db) + 1) * g.blockExtent := by ring
      _ ≤ g.hb * g.blockExtent := Nat.mul_le_mul_right _ (by omega)
      _ = g.h := hhbe
  have hbieq : blockIndexOf g (gxOf g.wb g.blockExtent bi li)
      (gyOf g.wb g.db g.blockExtent bi li)
      (gzOf g.wb g.db g.blockExtent bi li) = bi := by
    unfold blockIndexOf gxOf gyOf gzOf
    rw [(mul_add_div_mod _ _ _ he hlx).1, (mul_add_div_mod _ _ _ he hly).1,
      (mul_add_div_mod _ _ _ he hlz).1]
    unfold idx3
    rw [← Nat.div_div_eq_div_mul]
    exact idx_split g.wb g.db bi
  have hlieq : localIndexOf g.blockExtent (gxOf g.wb g.blockExtent bi li)
      (gyOf g.wb g.db g.blockExtent bi li)
      (gzOf g.wb g.db g.blockExtent bi li) = li := by
    unfold localIndexOf gxOf gyOf gzOf
    rw [(mul_add_div_mod _ _ _ he hlx).2, (mul_add_div_mod _ _ _ he hly).2,
      (mul_add_div_mod _ _ _ he hlz).2]
    unfold idx3
    rw [← Nat.div_div_eq_div_mul]
    exact idx_split g.blockExtent g.blockExtent li
  unfold voxelAt
  rw [if_pos ⟨hX, hY, hZ⟩, hbieq, hlieq]

/-- C10: the read accessors are observationally pure and deterministic —
their results are a function of the observable state only (dimensions,
block extent and the per-voxel samples), and in this value-level model a
read returns no modified grid, so two reads with no mutation in between
return identical buffers. -/
theorem C10_get_observational_purity (g g2 : VoxelGrid) (c : float3)
    (hWF : WF g) (hWF2 : WF g2) (hw : g.w = g2.w) (hd : g.d = g2.d)
    (hh : g.h = g2.h) (he : g.blockExtent = g2.blockExtent)
    (hsame : ∀ x y z : Nat, voxelAt g x y z = voxelAt g2 x y z) :
    GetBlockDistanceData g c = GetBlockDistanceData g2 c ∧
    GetBlockMaterialData g c = GetBlockMaterialData g2 c := by
  by_cases hin : inGridP g c
  case neg =>
    have hin2 : ¬ inGridP g2 c := by
      unfold inGridP at hin ⊢
      rw [← hw, ← hd, ← hh]
      exact hin
    constructor
    · unfold GetBlockDistanceData
      rw [if_neg hin, if_neg hin2]
    · unfold GetBlockMaterialData
      rw [if_neg hin, if_neg hin2]
  case pos =>
    have hin2 : inGridP g2 c := by
      unfold inGridP at hin ⊢
      rw [← hw, ← hd, ← hh]
      exact hin
    obtain ⟨hx0, hxw, hy0, hyd, hz0, hzh⟩ := hin
    have hXw : ⌊c.x⌋.toNat < g.w := by omega
    have hYd : ⌊c.y⌋.toNat < g.d := by omega
    have hZh : ⌊c.z⌋.toNat < g.h := by omega
    have hwb2 : g2.wb = g.wb := by
      unfold VoxelGrid.wb
      rw [← hw, ← he]
    have hdb2 : g2.db = g.db := by
      unfold VoxelGrid.db
      rw [← hd, ← he]
    have hhb2 : g2.hb = g.hb := by
      unfold VoxelGrid.hb
      rw [← hh, ← he]
    have hnum2 : g2.numBlocks = g.numBlocks := by
      unfold VoxelGrid.numBlocks
      rw [hwb2, hdb2, hhb2]
    have hbieq : blockIndexOfCoords g2 c = blockIndexOfCoords g c := by
      unfold blockIndexOfCoords blockIndexOf
      rw [hwb2, hdb2, ← he]
    have hbi : blockIndexOfCoords g c < g.numBlocks :=
      blockIndexOf_lt hWF hXw hYd hZh
    have hmem : g.blocks.getD (blockIndexOfCoords g c)
        (.uniform defaultSample) ∈ g.blocks := by
      have hlt : blockIndexOfCoords g c < g.blocks.length := by
        rw [hWF.2.2.2.2.2.2.2.1]
        exact hbi
      rw [List.getD_eq_getElem _ _ hlt]
      exact List.getElem_mem _
    have hmem2 : g2.blocks.getD (blockIndexOfCoords g2 c)
        (.uniform defaultSample) ∈ g2.blocks := by
      have hlt : blockIndexOfCoords g2 c < g2.blocks.length := by
        rw [hWF2.2.2.2.2.2.2.2.1, hbieq, hnum2]
        exact hbi
      rw [List.getD_eq_getElem _ _ hlt]
      exact List.getElem_mem _
    have hlen1 : (expand (cube g.blockExtent)
        (g.blocks.getD (blockIndexOfCoords g c)
          (.uniform defaultSample))).length = cube g.blockExtent :=
      expand_length (hWF.2.2.2.2.2.2.2.2.1 _ hmem)
    have hlen2 : (expand (cube g2.blockExtent)
        (g2.blocks.getD (blockIndexOfCoords g2 c)
          (.uniform defaultSample))).length = cube g2.blockExtent :=
      expand_length (hWF2.2.2.2.2.2.2.2.2.1 _ hmem2)
    have hblock : expand (cube g.blockExtent)
        (g.blocks.getD (blockIndexOfCoords g c) (.uniform defaultSample))
        = expand (cube g2.blockExtent)
          (g2.blocks.getD (blockIndexOfCoords g2 c)
            (.uniform defaultSample)) := by
      apply list_eq_of_getD defaultSample
      · rw [hlen1, hlen2, he]
      · intro i hi
        rw [hlen1] at hi
        have h1 := voxelAt_coords g hWF hbi hi
        have hbi2 : blockIndexOfCoords g2 c < g2.numBlocks := by
          rw [hbieq, hnum2]
          exact hbi
        have hi2 : i < cube g2.blockExtent := by
          rw [← he]
          exact hi
        have h2 := voxelAt_coords g2 hWF2 hbi2 hi2
        rw [hwb2, hdb2, ← he, hbieq] at h2
        rw [hsame _ _ _] at h1
        rw [h2] at h1
        rw [← he, hbieq]
        exact (Option.some.inj h1).symm
    constructor
    · unfold GetBlockDistanceData
      rw [if_pos hin2]
      rw [if_pos (show inGridP g c from ⟨hx0, hxw, hy0, hyd, hz0, hzh⟩)]
      rw [hblock]
    · unfold GetBlockMaterialData
      rw [if_pos hin2]
      rw [if_pos (show inGridP g c from ⟨hx0, hxw, hy0, hyd, hz0, hzh⟩)]
      rw [hblock]

theorem replicate_getD_self (n i : Nat) (s : VoxelSample) :
    (List.replicate n s).getD i s = s := by
  by_cases hi : i < n
  · rw [List.getD_eq_getElem _ _ (by simpa using hi)]
    simp
  · rw [List.getD_eq_default _ _ (by simpa using hi)]

theorem gridEmpty4_dense_same :
    ∀ x y z : Nat, voxelAt gridEmpty4 x y z = voxelAt gridDense4 x y z := by
  intro x y z
  unfold voxelAt
  by_cases h : x < gridEmpty4.w ∧ y < gridEmpty4.d ∧ z < gridEmpty4.h
  · rw [if_pos h, if_pos (show x < gridDense4.w ∧ y < gridDense4.d ∧
      z < gridDense4.h from h)]
    have hL : (expand (cube gridEmpty4.blockExtent)
        (gridEmpty4.blocks.getD (blockIndexOf gridEmpty4 x y z)
          (.uniform defaultSample))).getD
        (localIndexOf gridEmpty4.blockExtent x y z) defaultSample
        = defaultSample := by
      cases hbi : blockIndexOf gridEmpty4 x y z with
      | zero => exact replicate_getD_self _ _ _
      | succ n => exact replicate_getD_self _ _ _
    have hR : (expand (cube gridDense4.blockExtent)
        (gridDense4.blocks.getD (blockIndexOf gridDense4 x y z)
          (.uniform defaultSample))).getD
        (localIndexOf gridDense4.blockExtent x y z) defaultSample
        = defaultSample := by
      cases hbi : blockIndexOf gridDense4 x y z with
      | zero => exact replicate_getD_self _ _ _
      | succ n => exact replicate_getD_self _ _ _
    rw [hL, hR]
  · rw [if_neg h, if_neg (show ¬(x < gridDense4.w ∧ y < gridDense4.d ∧
      z < gridDense4.h) from h)]

theorem C10_get_observational_purity_witness :
    GetBlockDistanceData gridEmpty4 ⟨1, 2, 3⟩ =
      GetBlockDistanceData gridDense4 ⟨1, 2, 3⟩ ∧
    GetBlockMaterialData gridEmpty4 ⟨1, 2, 3⟩ =
      GetBlockMaterialData gridDense4 ⟨1, 2, 3⟩ :=
  C10_get_observational_purity gridEmpty4 gridDense4 ⟨1, 2, 3⟩ (by decide)
    (by decide) rfl rfl rfl rfl gridEmpty4_dense_same

end Voxels
